import Mathlib

/-!
Verification development for the OBJ writer of this repository.

The embedding models the writer source (`Writer.nodeTransform`,
`Writer.getRootScale`, `Writer.getObjectNodes`, `Writer.writeObjects`,
`Writer.write`) as pure Lean functions.  JavaScript numbers are modelled as
exact rationals (`ℚ`); file appends (`fse.appendFileSync`) are modelled as a
list of appended payload strings whose concatenation is the file's byte
content.  The external `three` library operations used by the source
(`Matrix4.set`, `makeRotationFromQuaternion`, `scale`, `setPosition`,
`extractRotation`, `Vector3.applyMatrix4`, `multiplyScalar`) are embedded
following the three.js implementation: `elements` is the column-major
backing array, `set` receives its sixteen arguments in row-major order.
-/

/-- 3-component vector, as three.js `Vector3` with rational coordinates. -/
structure Vec3 where
  x : ℚ
  y : ℚ
  z : ℚ
deriving DecidableEq, Repr

/-- Quaternion, as three.js `Quaternion` with rational components. -/
structure Quat where
  x : ℚ
  y : ℚ
  z : ℚ
  w : ℚ
deriving DecidableEq, Repr

/-- 4x4 matrix in three.js layout: fields `e0 … e15` are the column-major
`elements` array, so `e0 e1 e2 e3` is column 0 and the entry at row `i`,
column `j` is `e(i + 4 j)`. -/
structure Mat4 where
  e0 : ℚ
  e1 : ℚ
  e2 : ℚ
  e3 : ℚ
  e4 : ℚ
  e5 : ℚ
  e6 : ℚ
  e7 : ℚ
  e8 : ℚ
  e9 : ℚ
  e10 : ℚ
  e11 : ℚ
  e12 : ℚ
  e13 : ℚ
  e14 : ℚ
  e15 : ℚ
deriving DecidableEq, Repr

/-- The identity matrix (`new THREE.Matrix4().identity()`). -/
def Mat4.identity : Mat4 :=
  ⟨1, 0, 0, 0, 0, 1, 0, 0, 0, 0, 1, 0, 0, 0, 0, 1⟩

/-- three.js `Matrix4.set`: the sixteen arguments are given in row-major
order (`n11 n12 … n44`) and stored into the column-major `elements`. -/
def Mat4.setRowMajor (n11 n12 n13 n14 n21 n22 n23 n24 n31 n32 n33 n34 n41 n42 n43 n44 : ℚ) : Mat4 :=
  ⟨n11, n21, n31, n41, n12, n22, n32, n42, n13, n23, n33, n43, n14, n24, n34, n44⟩

/-- Matrix product, as three.js `multiplyMatrices` (column-major layout):
entry `(i, j)` of the product is the dot product of row `i` of `a` with
column `j` of `b`. -/
def Mat4.mul (a b : Mat4) : Mat4 :=
  ⟨a.e0 * b.e0 + a.e4 * b.e1 + a.e8 * b.e2 + a.e12 * b.e3,
   a.e1 * b.e0 + a.e5 * b.e1 + a.e9 * b.e2 + a.e13 * b.e3,
   a.e2 * b.e0 + a.e6 * b.e1 + a.e10 * b.e2 + a.e14 * b.e3,
   a.e3 * b.e0 + a.e7 * b.e1 + a.e11 * b.e2 + a.e15 * b.e3,
   a.e0 * b.e4 + a.e4 * b.e5 + a.e8 * b.e6 + a.e12 * b.e7,
   a.e1 * b.e4 + a.e5 * b.e5 + a.e9 * b.e6 + a.e13 * b.e7,
   a.e2 * b.e4 + a.e6 * b.e5 + a.e10 * b.e6 + a.e14 * b.e7,
   a.e3 * b.e4 + a.e7 * b.e5 + a.e11 * b.e6 + a.e15 * b.e7,
   a.e0 * b.e8 + a.e4 * b.e9 + a.e8 * b.e10 + a.e12 * b.e11,
   a.e1 * b.e8 + a.e5 * b.e9 + a.e9 * b.e10 + a.e13 * b.e11,
   a.e2 * b.e8 + a.e6 * b.e9 + a.e10 * b.e10 + a.e14 * b.e11,
   a.e3 * b.e8 + a.e7 * b.e9 + a.e11 * b.e10 + a.e15 * b.e11,
   a.e0 * b.e12 + a.e4 * b.e13 + a.e8 * b.e14 + a.e12 * b.e15,
   a.e1 * b.e12 + a.e5 * b.e13 + a.e9 * b.e14 + a.e13 * b.e15,
   a.e2 * b.e12 + a.e6 * b.e13 + a.e10 * b.e14 + a.e14 * b.e15,
   a.e3 * b.e12 + a.e7 * b.e13 + a.e11 * b.e14 + a.e15 * b.e15⟩

/-- Transpose of a matrix: entry `(i, j)` becomes entry `(j, i)`. -/
def Mat4.transpose (m : Mat4) : Mat4 :=
  ⟨m.e0, m.e4, m.e8, m.e12, m.e1, m.e5, m.e9, m.e13,
   m.e2, m.e6, m.e10, m.e14, m.e3, m.e7, m.e11, m.e15⟩

/-- Entry of the matrix at `row`, `col`, through the column-major layout. -/
def Mat4.entry (m : Mat4) (row col : Fin 4) : ℚ :=
  match row, col with
  | 0, 0 => m.e0
  | 1, 0 => m.e1
  | 2, 0 => m.e2
  | 3, 0 => m.e3
  | 0, 1 => m.e4
  | 1, 1 => m.e5
  | 2, 1 => m.e6
  | 3, 1 => m.e7
  | 0, 2 => m.e8
  | 1, 2 => m.e9
  | 2, 2 => m.e10
  | 3, 2 => m.e11
  | 0, 3 => m.e12
  | 1, 3 => m.e13
  | 2, 3 => m.e14
  | 3, 3 => m.e15

/-- Pure translation matrix, the effect of three.js `setPosition` applied to
the identity matrix. -/
def translationM (t : Vec3) : Mat4 :=
  ⟨1, 0, 0, 0, 0, 1, 0, 0, 0, 0, 1, 0, t.x, t.y, t.z, 1⟩

/-- Diagonal scale matrix built from a scale vector. -/
def scaleM (s : Vec3) : Mat4 :=
  ⟨s.x, 0, 0, 0, 0, s.y, 0, 0, 0, 0, s.z, 0, 0, 0, 0, 1⟩

/-- Rotation matrix of a quaternion, exactly the matrix produced by
three.js `makeRotationFromQuaternion` (which calls `compose` with zero
position and unit scale). -/
def rotFromQuat (q : Quat) : Mat4 :=
  let x2 := q.x + q.x
  let y2 := q.y + q.y
  let z2 := q.z + q.z
  let xx := q.x * x2
  let xy := q.x * y2
  let xz := q.x * z2
  let yy := q.y * y2
  let yz := q.y * z2
  let zz := q.z * z2
  let wx := q.w * x2
  let wy := q.w * y2
  let wz := q.w * z2
  ⟨1 - (yy + zz), xy + wz, xz - wy, 0,
   xy - wz, 1 - (xx + zz), yz + wx, 0,
   xz + wy, yz - wx, 1 - (xx + yy), 0,
   0, 0, 0, 1⟩

/-- three.js `Matrix4.scale(v)`: post-multiplies the matrix in place by a
scale matrix, scaling columns 0, 1, 2 by `v.x`, `v.y`, `v.z`. -/
def Mat4.scaleBy (m : Mat4) (v : Vec3) : Mat4 :=
  ⟨m.e0 * v.x, m.e1 * v.x, m.e2 * v.x, m.e3 * v.x,
   m.e4 * v.y, m.e5 * v.y, m.e6 * v.y, m.e7 * v.y,
   m.e8 * v.z, m.e9 * v.z, m.e10 * v.z, m.e11 * v.z,
   m.e12, m.e13, m.e14, m.e15⟩

/-- three.js `Matrix4.setPosition(x, y, z)`: overwrites the translation
column. -/
def Mat4.setPosition (m : Mat4) (t : Vec3) : Mat4 :=
  { m with e12 := t.x, e13 := t.y, e14 := t.z }

/-- Square root used by `extractRotation` for column lengths.  `Math.sqrt`
computes the real square root; this rational stand-in (`Rat.sqrt`) agrees
with it exactly whenever the argument is the square of a rational, which
holds for every concrete matrix evaluated in this development. -/
def sqrtQ (q : ℚ) : ℚ :=
  Rat.sqrt q

/-- three.js `Matrix4.extractRotation(m)`: each of the three basis columns
of `m` divided by its Euclidean length, translation zeroed. -/
def Mat4.extractRotation (m : Mat4) : Mat4 :=
  let sx := (sqrtQ (m.e0 * m.e0 + m.e1 * m.e1 + m.e2 * m.e2))⁻¹
  let sy := (sqrtQ (m.e4 * m.e4 + m.e5 * m.e5 + m.e6 * m.e6))⁻¹
  let sz := (sqrtQ (m.e8 * m.e8 + m.e9 * m.e9 + m.e10 * m.e10))⁻¹
  ⟨m.e0 * sx, m.e1 * sx, m.e2 * sx, 0,
   m.e4 * sy, m.e5 * sy, m.e6 * sy, 0,
   m.e8 * sz, m.e9 * sz, m.e10 * sz, 0,
   0, 0, 0, 1⟩

/-- three.js `Vector3.applyMatrix4(m)`: applies the matrix to the point
(homogeneous coordinate 1) with perspective division. -/
def Mat4.applyToV3 (m : Mat4) (v : Vec3) : Vec3 :=
  let w := (m.e3 * v.x + m.e7 * v.y + m.e11 * v.z + m.e15)⁻¹
  ⟨(m.e0 * v.x + m.e4 * v.y + m.e8 * v.z + m.e12) * w,
   (m.e1 * v.x + m.e5 * v.y + m.e9 * v.z + m.e13) * w,
   (m.e2 * v.x + m.e6 * v.y + m.e10 * v.z + m.e14) * w⟩

/-- three.js `Vector3.multiplyScalar`. -/
def Vec3.multiplyScalar (v : Vec3) (s : ℚ) : Vec3 :=
  ⟨v.x * s, v.y * s, v.z * s⟩

/-- `myFixed4` from the source: `Math.round(x * 10000) / 10000`.
JavaScript `Math.round` rounds half toward positive infinity, matching
Mathlib's `round`. -/
def myFixed4 (x : ℚ) : ℚ :=
  (round (x * 10000) : ℤ) / 10000

/-- `myFixed2` from the source: `Math.round(x * 100) / 100`. -/
def myFixed2 (x : ℚ) : ℚ :=
  (round (x * 100) : ℤ) / 100

/-- Fractional decimal digits of `x ∈ [0, 1)`, recursion bounded by `fuel`;
stops at the first zero remainder, so trailing zeros are not produced. -/
def fracStr : Nat → ℚ → String
  | 0, _ => ""
  | fuel + 1, x =>
    if x = 0 then ""
    else
      let d := ⌊x * 10⌋
      toString d.toNat ++ fracStr fuel (x * 10 - (d : ℚ))

/-- Decimal rendering of a rational, modelling how JavaScript string
interpolation prints the numbers this writer produces (which are exact
multiples of `1/10000`): optional minus sign, integer part, and fractional
digits without trailing zeros, no decimal point for integers. -/
def numStr (q : ℚ) : String :=
  let sign := if q < 0 then "-" else ""
  let a := |q|
  let ip := (⌊a⌋ : ℤ).toNat
  let f := fracStr 20 (a - (ip : ℚ))
  sign ++ toString ip ++ (if f = "" then "" else "." ++ f)

/-- JS `Array.flatten("\n")`. -/
def joinLines : List String → String
  | [] => ""
  | [l] => l
  | l :: ls => l ++ "\n" ++ joinLines ls

/-!
## Intermediate scene model

The shapes below mirror `IMF` as consumed by the writer: tagged node,
geometry and transform variants, an indexable node sequence, geometries
referenced by id, and metadata.  Matrix transform elements are modelled from
the spec as a 16-entry column-major array (`Modelled from the spec:` the
`intermediate-format` module itself is not among the given source files;
the spec fixes `Matrix` as "16 numbers, column-major").
-/

/-- Transform variant of a node (`IMF.TransformKind`). -/
inductive Transform where
  | Matrix (elements : Fin 16 → ℚ)
  | Decomposed (rotation : Option Quat) (scale : Option Vec3) (translation : Option Vec3)

/-- Geometry variant (`IMF.GeometryKind`); only `Mesh` carries buffers the
writer reads.  Vertices and normals are flat X,Y,Z-interleaved rational
sequences; indices are flat 0-based triangle corner indices. -/
inductive Geometry where
  | Mesh (vertices : List ℚ) (indices : List Nat) (normals : Option (List ℚ))
  | OtherGeom (kindCode : Nat)

/-- Node variant (`IMF.NodeKind`); `Object` nodes carry `dbid`, a geometry
reference and an optional transform. -/
inductive Node where
  | Object (dbid : Nat) (geometry : Nat) (transform : Option Transform)
  | OtherNode (kindCode : Nat)

/-- Scene as consumed through the read-only interface: ordered nodes,
geometries by reference, metadata mapping (the writer only reads the
`value` field of `metadata['distance unit']`, modelled as the string held
by the key). -/
structure Scene where
  nodes : List Node
  geometries : List Geometry
  metadata : List (String × String)

/-- `imf.getNode(i)`. -/
def Scene.getNode (s : Scene) (i : Nat) : Node :=
  s.nodes.getD i (Node.OtherNode 0)

/-- `imf.getGeometry(ref)`. -/
def Scene.getGeometry (s : Scene) (ref : Nat) : Geometry :=
  s.geometries.getD ref (Geometry.OtherGeom 0)

/-- External property database interface (`PropDbReader`), consumed as an
oracle: per-dbid property bag and the recursive ancestor lookup. -/
structure PropDb where
  getProperties : Nat → List (String × String)
  findPropertyRecursive : Nat → List String → Option String

/-- `Writer.nodeTransform`, resolving a node's optional transform to a
world matrix.  `Matrix` elements are passed positionally to three.js
`Matrix4.set`; `Decomposed` overwrites with the quaternion rotation if
present, post-multiplies by the scale if present, then overwrites the
translation column if present. -/
def nodeTransform (tf : Option Transform) : Mat4 :=
  match tf with
  | none => Mat4.identity
  | some (Transform.Matrix m) =>
    Mat4.setRowMajor (m 0) (m 1) (m 2) (m 3) (m 4) (m 5) (m 6) (m 7)
      (m 8) (m 9) (m 10) (m 11) (m 12) (m 13) (m 14) (m 15)
  | some (Transform.Decomposed r s t) =>
    let m1 := match r with
      | some q => rotFromQuat q
      | none => Mat4.identity
    let m2 := match s with
      | some sv => Mat4.scaleBy m1 sv
      | none => m1
    match t with
    | some tv => Mat4.setPosition m2 tv
    | none => m2

/-- The matrix whose column-major `elements` array is exactly the source
array: this is the "loads directly, in the same column convention" reading
(column 0 = `elements[0..3]`) that the spec asserts. -/
def colMajorLoad (m : Fin 16 → ℚ) : Mat4 :=
  ⟨m 0, m 1, m 2, m 3, m 4, m 5, m 6, m 7, m 8, m 9, m 10, m 11, m 12, m 13, m 14, m 15⟩

/-- `Writer.getRootScale`: reads `metadata['distance unit']?.value` and maps
the fixed unit table, defaulting to 1.  The JavaScript truthiness guard
`if (distanceUnit)` skips the switch for the empty string. -/
def getRootScale (s : Scene) : ℚ :=
  match List.lookup "distance unit" s.metadata with
  | none => 1
  | some u =>
    if u = "" then 1
    else
      match u with
      | "centimeter" => 1 / 100
      | "cm" => 1 / 100
      | "millimeter" => 1 / 1000
      | "mm" => 1 / 1000
      | "foot" => 3048 / 10000
      | "ft" => 3048 / 10000
      | "inch" => 254 / 10000
      | "in" => 254 / 10000
      | _ => 1

/-- Componentwise characterisation of matrix equality. -/
theorem Mat4.eq_iff {a b : Mat4} :
    a = b ↔ a.e0 = b.e0 ∧ a.e1 = b.e1 ∧ a.e2 = b.e2 ∧ a.e3 = b.e3 ∧
      a.e4 = b.e4 ∧ a.e5 = b.e5 ∧ a.e6 = b.e6 ∧ a.e7 = b.e7 ∧
      a.e8 = b.e8 ∧ a.e9 = b.e9 ∧ a.e10 = b.e10 ∧ a.e11 = b.e11 ∧
      a.e12 = b.e12 ∧ a.e13 = b.e13 ∧ a.e14 = b.e14 ∧ a.e15 = b.e15 := by
  constructor
  · intro h
    subst h
    exact ⟨rfl, rfl, rfl, rfl, rfl, rfl, rfl, rfl, rfl, rfl, rfl, rfl, rfl, rfl, rfl, rfl⟩
  · intro h
    cases a
    cases b
    simp_all

/-- Example element array for the Matrix-variant counterexample: entry `k`
holds the rational `k`, so every position is distinguishable. -/
def mEx : Fin 16 → ℚ :=
  fun k => (k.val : ℚ)

/-- C2 counterexample: the claim says the 16 elements load directly in the
source's column-major convention, i.e. the resolved world matrix is
`colMajorLoad elements`.  With the distinguishing array `mEx` this is
false: three.js `Matrix4.set` consumes its arguments in row-major order,
so `elements[1]` lands at row 0, column 1 (elements slot 4), not at row 1,
column 0. -/
theorem c2_matrix_not_column_major :
    nodeTransform (some (Transform.Matrix mEx)) ≠ colMajorLoad mEx := by
  decide

/-- C2 (amended): for every Matrix-variant transform, the resolver loads
the 16 elements in row-major order: `elements[0..3]` become row 0 of the
world matrix, `elements[4..7]` row 1, `elements[8..11]` row 2 and
`elements[12..15]` row 3 — equivalently, the world matrix is the transpose
of the matrix whose column-major element array is the source array. -/
theorem c2_matrix_loads_row_major (m : Fin 16 → ℚ) :
    nodeTransform (some (Transform.Matrix m)) = (colMajorLoad m).transpose ∧
      ((nodeTransform (some (Transform.Matrix m))).entry 0 0 = m 0 ∧
        (nodeTransform (some (Transform.Matrix m))).entry 0 1 = m 1 ∧
        (nodeTransform (some (Transform.Matrix m))).entry 0 2 = m 2 ∧
        (nodeTransform (some (Transform.Matrix m))).entry 0 3 = m 3) ∧
      ((nodeTransform (some (Transform.Matrix m))).entry 1 0 = m 4 ∧
        (nodeTransform (some (Transform.Matrix m))).entry 1 1 = m 5 ∧
        (nodeTransform (some (Transform.Matrix m))).entry 1 2 = m 6 ∧
        (nodeTransform (some (Transform.Matrix m))).entry 1 3 = m 7) ∧
      ((nodeTransform (some (Transform.Matrix m))).entry 2 0 = m 8 ∧
        (nodeTransform (some (Transform.Matrix m))).entry 2 1 = m 9 ∧
        (nodeTransform (some (Transform.Matrix m))).entry 2 2 = m 10 ∧
        (nodeTransform (some (Transform.Matrix m))).entry 2 3 = m 11) ∧
      ((nodeTransform (some (Transform.Matrix m))).entry 3 0 = m 12 ∧
        (nodeTransform (some (Transform.Matrix m))).entry 3 1 = m 13 ∧
        (nodeTransform (some (Transform.Matrix m))).entry 3 2 = m 14 ∧
        (nodeTransform (some (Transform.Matrix m))).entry 3 3 = m 15) := by
  refine ⟨rfl, ?_, ?_, ?_, ?_⟩ <;> exact ⟨rfl, rfl, rfl, rfl⟩

/-- The identity quaternion, the default rotation. -/
def identQuat : Quat :=
  ⟨0, 0, 0, 1⟩

/-- C3: for every Decomposed-variant transform, the resolved world matrix
is `T * R * S`, the composition of the scale matrix of `scale` (default
1,1,1), the rotation matrix of the quaternion `rotation` (default
identity) and the translation of `translation` (default 0,0,0); with
identity scale and rotation the result is exactly the pure translation
matrix, and an absent transform resolves to the identity matrix. -/
theorem c3_decomposed_is_trs (r : Option Quat) (s : Option Vec3) (t : Option Vec3) :
    nodeTransform (some (Transform.Decomposed r s t)) =
      Mat4.mul (Mat4.mul (translationM (t.getD ⟨0, 0, 0⟩)) (rotFromQuat (r.getD identQuat)))
        (scaleM (s.getD ⟨1, 1, 1⟩)) ∧
      nodeTransform (some (Transform.Decomposed (some identQuat) (some ⟨1, 1, 1⟩) t)) =
        translationM (t.getD ⟨0, 0, 0⟩) ∧
      nodeTransform none = Mat4.identity := by
  refine ⟨?_, ?_, rfl⟩
  · cases r with
    | none =>
      cases s with
      | none =>
        cases t with
        | none =>
          simp only [nodeTransform, Option.getD]
          rw [Mat4.eq_iff]
          simp only [Mat4.identity, Mat4.mul, translationM, rotFromQuat, scaleM, identQuat]
          norm_num
        | some tv =>
          simp only [nodeTransform, Option.getD]
          rw [Mat4.eq_iff]
          simp only [Mat4.identity, Mat4.mul, translationM, rotFromQuat, scaleM, identQuat,
            Mat4.setPosition]
          norm_num
      | some sv =>
        cases t with
        | none =>
          simp only [nodeTransform, Option.getD]
          rw [Mat4.eq_iff]
          simp only [Mat4.identity, Mat4.mul, translationM, rotFromQuat, scaleM, identQuat,
            Mat4.scaleBy]
          norm_num
        | some tv =>
          simp only [nodeTransform, Option.getD]
          rw [Mat4.eq_iff]
          simp only [Mat4.identity, Mat4.mul, translationM, rotFromQuat, scaleM, identQuat,
            Mat4.scaleBy, Mat4.setPosition]
          norm_num
    | some q =>
      cases s with
      | none =>
        cases t with
        | none =>
          simp only [nodeTransform, Option.getD]
          rw [Mat4.eq_iff]
          simp only [Mat4.mul, translationM, rotFromQuat, scaleM]
          refine ⟨?_, ?_, ?_, ?_, ?_, ?_, ?_, ?_, ?_, ?_, ?_, ?_, ?_, ?_, ?_, ?_⟩ <;> ring
        | some tv =>
          simp only [nodeTransform, Option.getD]
          rw [Mat4.eq_iff]
          simp only [Mat4.mul, translationM, rotFromQuat, scaleM, Mat4.setPosition]
          refine ⟨?_, ?_, ?_, ?_, ?_, ?_, ?_, ?_, ?_, ?_, ?_, ?_, ?_, ?_, ?_, ?_⟩ <;> ring
      | some sv =>
        cases t with
        | none =>
          simp only [nodeTransform, Option.getD]
          rw [Mat4.eq_iff]
          simp only [Mat4.mul, translationM, rotFromQuat, scaleM, Mat4.scaleBy]
          refine ⟨?_, ?_, ?_, ?_, ?_, ?_, ?_, ?_, ?_, ?_, ?_, ?_, ?_, ?_, ?_, ?_⟩ <;> ring
        | some tv =>
          simp only [nodeTransform, Option.getD]
          rw [Mat4.eq_iff]
          simp only [Mat4.mul, translationM, rotFromQuat, scaleM, Mat4.scaleBy, Mat4.setPosition]
          refine ⟨?_, ?_, ?_, ?_, ?_, ?_, ?_, ?_, ?_, ?_, ?_, ?_, ?_, ?_, ?_, ?_⟩ <;> ring
  · cases t with
    | none =>
      simp only [nodeTransform, Option.getD]
      rw [Mat4.eq_iff]
      simp only [Mat4.scaleBy, rotFromQuat, identQuat, translationM]
      norm_num
    | some tv =>
      simp only [nodeTransform, Option.getD]
      rw [Mat4.eq_iff]
      simp only [Mat4.scaleBy, rotFromQuat, identQuat, translationM, Mat4.setPosition]
      norm_num

/-- The fixed unit-token table of `getRootScale`. -/
def unitTokens : List String :=
  ["centimeter", "cm", "millimeter", "mm", "foot", "ft", "inch", "in"]

/-- C4: the unit scale resolver maps `centimeter`/`cm` to 0.01,
`millimeter`/`mm` to 0.001, `foot`/`ft` to 0.3048, `inch`/`in` to 0.0254,
and yields 1 for any other value of the `"distance unit"` key or when the
key is absent; the function is total, so no error is ever raised. -/
theorem c4_root_scale_table (s : Scene) :
    (∀ u, List.lookup "distance unit" s.metadata = some u →
      ((u = "centimeter" ∨ u = "cm") → getRootScale s = 1 / 100) ∧
      ((u = "millimeter" ∨ u = "mm") → getRootScale s = 1 / 1000) ∧
      ((u = "foot" ∨ u = "ft") → getRootScale s = 3048 / 10000) ∧
      ((u = "inch" ∨ u = "in") → getRootScale s = 254 / 10000) ∧
      (u ∉ unitTokens → getRootScale s = 1)) ∧
    (List.lookup "distance unit" s.metadata = none → getRootScale s = 1) := by
  constructor
  · intro u hu
    refine ⟨?_, ?_, ?_, ?_, ?_⟩
    · rintro (rfl | rfl) <;> simp [getRootScale, hu]
    · rintro (rfl | rfl) <;> simp [getRootScale, hu]
    · rintro (rfl | rfl) <;> simp [getRootScale, hu]
    · rintro (rfl | rfl) <;> simp [getRootScale, hu]
    · intro hnot
      simp only [unitTokens, List.mem_cons, List.not_mem_nil, or_false, not_or] at hnot
      obtain ⟨h1, h2, h3, h4, h5, h6, h7, h8⟩ := hnot
      by_cases he : u = ""
      · simp [getRootScale, hu, he]
      · simp [getRootScale, hu, he, h1, h2, h3, h4, h5, h6, h7, h8]
  · intro h
    simp [getRootScale, h]

/-- Concrete scene with centimeter units. -/
def sceneCm : Scene :=
  ⟨[], [], [("distance unit", "cm")]⟩

/-- Concrete scene with an unknown unit token. -/
def sceneParsec : Scene :=
  ⟨[], [], [("distance unit", "parsec")]⟩

/-- Witness for C4 at concrete inputs: `cm` metadata resolves to 1/100 and
the unknown token `parsec` resolves to 1. -/
theorem c4_root_scale_table_witness :
    getRootScale sceneCm = 1 / 100 ∧ getRootScale sceneParsec = 1 := by
  constructor
  · exact ((c4_root_scale_table sceneCm).1 "cm" (by decide)).1 (Or.inr rfl)
  · exact ((c4_root_scale_table sceneParsec).1 "parsec" (by decide)).2.2.2.2 (by decide)

/-!
## Property classifier and grouper (`Writer.getObjectNodes`)

JS `Map` objects preserve insertion order; they are modelled as association
lists with unique keys, where `map.get(id)?.push(i) ?? map.set(id, [i])`
appends `i` to the existing entry or appends a fresh entry at the end.
-/

/-- One ordered bucket: GroupKey to list of node indices. -/
abbrev Bucket := List (String × List Nat)

/-- `bucket.get(id)?.push(i) ?? bucket.set(id, [i])`. -/
def bucketInsert (b : Bucket) (id : String) (i : Nat) : Bucket :=
  if (List.lookup id b).isSome then
    b.map (fun p => if p.1 = id then (p.1, p.2 ++ [i]) else p)
  else
    b ++ [(id, [i])]

/-- The pair of buckets built by the grouping pass. -/
structure Buckets where
  building : Bucket
  opening : Bucket
deriving DecidableEq, Repr

/-- Opening classification of an Object node: property database present and
property `Element:IfcExportAs` strictly equal to `"IfcOpeningElement"` (the
JavaScript truthiness guard on the property value cannot change the
outcome, since only the exact string `"IfcOpeningElement"`, which is
truthy, passes the subsequent strict equality). -/
def objClass (db : Option PropDb) (dbid : Nat) : Bool :=
  match db with
  | some d =>
    decide (List.lookup "Element:IfcExportAs" (d.getProperties dbid) = some "IfcOpeningElement")
  | none => false

/-- GroupKey of an Object node:
`propdb?.findPropertyRecursive(dbid, ['IFC:GLOBALID', 'Element:IfcGUID']) ?? `dbid-${dbid}``. -/
def groupIdOf (db : Option PropDb) (dbid : Nat) : String :=
  (match db with
    | some d => d.findPropertyRecursive dbid ["IFC:GLOBALID", "Element:IfcGUID"]
    | none => none).getD ("dbid-" ++ toString dbid)

/-- Body of the grouping loop for one indexed node. -/
def classifyStep (db : Option PropDb) (acc : Buckets × List String) (p : Nat × Node) :
    Buckets × List String :=
  match p.2 with
  | Node.OtherNode k =>
    (acc.1, acc.2 ++ ["Skipping node type " ++ toString k])
  | Node.Object dbid _ _ =>
    if objClass db dbid then
      ({ acc.1 with opening := bucketInsert acc.1.opening (groupIdOf db dbid) p.1 }, acc.2)
    else
      ({ acc.1 with building := bucketInsert acc.1.building (groupIdOf db dbid) p.1 }, acc.2)

/-- `Writer.getObjectNodes`: iterate nodes in scene order, skip (with a log
line) non-Object nodes, classify and group the rest. -/
def getObjectNodes (scene : Scene) (db : Option PropDb) : Buckets × List String :=
  scene.nodes.enum.foldl (classifyStep db) (⟨[], []⟩, [])

/-- GroupKey and classification of a node, `none` for non-Object kinds. -/
def objInfo (db : Option PropDb) : Node → Option (String × Bool)
  | Node.Object dbid _ _ => some (groupIdOf db dbid, objClass db dbid)
  | Node.OtherNode _ => none

/-- Indices (in list order) of the Object nodes of `ps` whose GroupKey is
`k` and whose classification flag is `fl`. -/
def selectedIdx (db : Option PropDb) (ps : List (Nat × Node)) (k : String) (fl : Bool) : List Nat :=
  ps.filterMap fun p =>
    match objInfo db p.2 with
    | some (k2, f2) => if k2 = k ∧ f2 = fl then some p.1 else none
    | none => none

/-- GroupKeys (in list order, with repetitions) of the Object nodes of `ps`
whose classification flag is `fl`. -/
def keysSeq (db : Option PropDb) (ps : List (Nat × Node)) (fl : Bool) : List String :=
  ps.filterMap fun p =>
    match objInfo db p.2 with
    | some (k2, f2) => if f2 = fl then some k2 else none
    | none => none

/-- First occurrences of a list of keys, in order of first appearance. -/
def dedupKeepFirst : List String → List String
  | [] => []
  | k :: ks => k :: (dedupKeepFirst ks).filter fun x => x ≠ k

theorem lookup_cons_eq_ite (k k0 : String) (v : List Nat) (b : Bucket) :
    List.lookup k ((k0, v) :: b) = if k = k0 then some v else List.lookup k b := by
  by_cases h : k = k0
  · simp [List.lookup_cons, h]
  · have hb : (k == k0) = false := beq_eq_false_iff_ne.mpr h
    simp [List.lookup_cons, hb, h]

theorem lookup_map_update (b : Bucket) (id k : String) (i : Nat) :
    List.lookup k (b.map fun p => if p.1 = id then (p.1, p.2 ++ [i]) else p) =
      (List.lookup k b).map fun v => if k = id then v ++ [i] else v := by
  induction b with
  | nil => simp
  | cons p b ih =>
    cases p with
    | mk k0 v =>
      by_cases h0 : k0 = id
      · subst h0
        simp only [List.map_cons, if_pos rfl]
        by_cases hk : k = k0
        · subst hk
          simp [lookup_cons_eq_ite]
        · rw [lookup_cons_eq_ite _ _ _ _, lookup_cons_eq_ite _ _ _ _] <;>
            simp [hk, ih]
      · simp only [List.map_cons, if_neg h0]
        by_cases hk : k = k0
        · subst hk
          have hki : k ≠ id := h0
          simp [lookup_cons_eq_ite, hki]
        · rw [lookup_cons_eq_ite _ _ _ _, lookup_cons_eq_ite _ _ _ _] <;>
            simp [hk, ih]

theorem lookup_append_single (b : Bucket) (id k : String) (l : List Nat) :
    List.lookup k (b ++ [(id, l)]) =
      match List.lookup k b with
      | some v => some v
      | none => if k = id then some l else none := by
  induction b with
  | nil => by_cases h : k = id <;> simp [lookup_cons_eq_ite, h]
  | cons p b ih =>
    cases p with
    | mk k0 v =>
      by_cases hk : k = k0
      · subst hk
        simp [List.cons_append, lookup_cons_eq_ite]
      · simp only [List.cons_append]
        rw [lookup_cons_eq_ite _ _ _ _, lookup_cons_eq_ite _ _ _ _] <;> simp [hk, ih]

theorem lookup_bucketInsert_self (b : Bucket) (id : String) (i : Nat) :
    List.lookup id (bucketInsert b id i) = some ((List.lookup id b).getD [] ++ [i]) := by
  unfold bucketInsert
  by_cases hs : (List.lookup id b).isSome
  · rw [if_pos hs, lookup_map_update]
    obtain ⟨v, hv⟩ := Option.isSome_iff_exists.mp hs
    simp [hv]
  · rw [if_neg hs, lookup_append_single]
    have hn : List.lookup id b = none := Option.not_isSome_iff_eq_none.mp hs
    simp [hn]

theorem lookup_bucketInsert_other (b : Bucket) (id k : String) (i : Nat) (h : k ≠ id) :
    List.lookup k (bucketInsert b id i) = List.lookup k b := by
  unfold bucketInsert
  by_cases hs : (List.lookup id b).isSome
  · rw [if_pos hs, lookup_map_update]
    cases hv : List.lookup k b <;> simp [hv, h]
  · rw [if_neg hs, lookup_append_single]
    cases hv : List.lookup k b <;> simp [hv, h]

theorem keys_bucketInsert (b : Bucket) (id : String) (i : Nat) :
    (bucketInsert b id i).map Prod.fst =
      if (List.lookup id b).isSome then b.map Prod.fst else b.map Prod.fst ++ [id] := by
  unfold bucketInsert
  by_cases hs : (List.lookup id b).isSome
  · rw [if_pos hs, if_pos hs, List.map_map]
    have hf : (Prod.fst ∘ fun p : String × List Nat => if p.1 = id then (p.1, p.2 ++ [i]) else p) =
        Prod.fst := by
      funext p
      by_cases hp : p.1 = id <;> simp [hp]
    rw [hf]
  · simp [hs]

/-- Bucket selector: the opening bucket for flag `true`, building for
`false`. -/
def bucketOf (bks : Buckets) (fl : Bool) : Bucket :=
  if fl then bks.opening else bks.building

theorem classifyStep_otherNode (db : Option PropDb) (acc : Buckets × List String)
    (i j : Nat) (fl : Bool) :
    bucketOf (classifyStep db acc (i, Node.OtherNode j)).1 fl = bucketOf acc.1 fl := by
  simp [classifyStep]

theorem classifyStep_object (db : Option PropDb) (acc : Buckets × List String)
    (i dbid g : Nat) (tf : Option Transform) (fl : Bool) :
    bucketOf (classifyStep db acc (i, Node.Object dbid g tf)).1 fl =
      if objClass db dbid = fl then
        bucketInsert (bucketOf acc.1 fl) (groupIdOf db dbid) i
      else bucketOf acc.1 fl := by
  by_cases hc : objClass db dbid <;> cases fl <;> simp [classifyStep, bucketOf, hc]

theorem foldl_classify_lookup (db : Option PropDb) (fl : Bool) (ps : List (Nat × Node)) :
    ∀ (acc : Buckets × List String) (k : String),
      List.lookup k (bucketOf (ps.foldl (classifyStep db) acc).1 fl) =
        match List.lookup k (bucketOf acc.1 fl) with
        | some l => some (l ++ selectedIdx db ps k fl)
        | none =>
          if selectedIdx db ps k fl = [] then none
          else some (selectedIdx db ps k fl) := by
  induction ps with
  | nil =>
    intro acc k
    cases h : List.lookup k (bucketOf acc.1 fl) <;> simp [selectedIdx, h]
  | cons p ps ih =>
    intro acc k
    obtain ⟨i, nd⟩ := p
    cases nd with
    | OtherNode j =>
      rw [List.foldl_cons, ih, classifyStep_otherNode]
      have hsel : selectedIdx db ((i, Node.OtherNode j) :: ps) k fl = selectedIdx db ps k fl := by
        simp [selectedIdx, objInfo]
      rw [hsel]
    | Object dbid g tf =>
      rw [List.foldl_cons, ih, classifyStep_object]
      by_cases hc : objClass db dbid = fl
      · rw [if_pos hc]
        by_cases hk : groupIdOf db dbid = k
        · have hsel : selectedIdx db ((i, Node.Object dbid g tf) :: ps) k fl =
              i :: selectedIdx db ps k fl := by
            simp [selectedIdx, objInfo, hc, hk]
          rw [hsel, hk, lookup_bucketInsert_self]
          cases h : List.lookup k (bucketOf acc.1 fl) <;> simp [h]
        · have hsel : selectedIdx db ((i, Node.Object dbid g tf) :: ps) k fl =
              selectedIdx db ps k fl := by
            simp [selectedIdx, objInfo, hk]
          rw [hsel, lookup_bucketInsert_other _ _ _ _ (fun h => hk h.symm)]
      · rw [if_neg hc]
        have hsel : selectedIdx db ((i, Node.Object dbid g tf) :: ps) k fl =
            selectedIdx db ps k fl := by
          simp [selectedIdx, objInfo, hc]
        rw [hsel]

theorem mem_dedupKeepFirst (x : String) (l : List String) :
    x ∈ dedupKeepFirst l ↔ x ∈ l := by
  induction l with
  | nil => simp [dedupKeepFirst]
  | cons k ks ih =>
    simp only [dedupKeepFirst, List.mem_cons, List.mem_filter]
    constructor
    · rintro (rfl | ⟨hx, _⟩)
      · exact Or.inl rfl
      · exact Or.inr (ih.mp hx)
    · rintro (rfl | hx)
      · exact Or.inl rfl
      · by_cases he : x = k
        · exact Or.inl he
        · exact Or.inr ⟨ih.mpr hx, by simpa using he⟩

theorem dedupKeepFirst_nodup (l : List String) : (dedupKeepFirst l).Nodup := by
  induction l with
  | nil => simp [dedupKeepFirst]
  | cons k ks ih =>
    refine List.nodup_cons.mpr ⟨?_, ih.filter _⟩
    intro hmem
    have := (List.mem_filter.mp hmem).2
    simp at this

theorem dedupKeepFirst_filter (p : String → Bool) (l : List String) :
    dedupKeepFirst (l.filter p) = (dedupKeepFirst l).filter p := by
  induction l with
  | nil => simp [dedupKeepFirst]
  | cons k ks ih =>
    cases hp : p k with
    | true =>
      rw [List.filter_cons_of_pos hp]
      simp only [dedupKeepFirst, ih]
      rw [List.filter_cons_of_pos hp]
      rw [List.filter_filter, List.filter_filter]
      congr 1
      apply List.filter_congr
      intro x _
      rw [Bool.and_comm]
    | false =>
      rw [List.filter_cons_of_neg (by simp [hp])]
      simp only [dedupKeepFirst, ih]
      rw [List.filter_cons_of_neg (by simp [hp])]
      rw [List.filter_filter]
      apply List.filter_congr
      intro x _
      by_cases hx : x = k
      · subst hx
        simp [hp]
      · simp [hx]

theorem dedupKeepFirst_cons (k : String) (l : List String) :
    dedupKeepFirst (k :: l) = k :: (dedupKeepFirst l).filter fun x => x ≠ k :=
  rfl

theorem foldl_classify_keys (db : Option PropDb) (fl : Bool) (ps : List (Nat × Node)) :
    ∀ (acc : Buckets × List String),
      (bucketOf (ps.foldl (classifyStep db) acc).1 fl).map Prod.fst =
        (bucketOf acc.1 fl).map Prod.fst ++
          dedupKeepFirst ((keysSeq db ps fl).filter fun k =>
            (List.lookup k (bucketOf acc.1 fl)).isNone) := by
  induction ps with
  | nil =>
    intro acc
    simp [keysSeq, dedupKeepFirst]
  | cons p ps ih =>
    intro acc
    obtain ⟨i, nd⟩ := p
    cases nd with
    | OtherNode j =>
      rw [List.foldl_cons, ih, classifyStep_otherNode]
      have hks : keysSeq db ((i, Node.OtherNode j) :: ps) fl = keysSeq db ps fl := by
        simp [keysSeq, objInfo]
      rw [hks]
    | Object dbid g tf =>
      rw [List.foldl_cons, ih, classifyStep_object]
      by_cases hc : objClass db dbid = fl
      · rw [if_pos hc]
        have hks : keysSeq db ((i, Node.Object dbid g tf) :: ps) fl =
            groupIdOf db dbid :: keysSeq db ps fl := by
          simp [keysSeq, objInfo, hc]
        rw [hks]
        by_cases hs : (List.lookup (groupIdOf db dbid) (bucketOf acc.1 fl)).isSome
        · have hfalse : (List.lookup (groupIdOf db dbid) (bucketOf acc.1 fl)).isNone = false := by
            cases hv : List.lookup (groupIdOf db dbid) (bucketOf acc.1 fl) with
            | none => rw [hv] at hs; cases hs
            | some v => rfl
          rw [keys_bucketInsert, if_pos hs,
            List.filter_cons_of_neg (by simp [hfalse])]
          congr 2
          apply List.filter_congr
          intro x _
          by_cases hxk : x = groupIdOf db dbid
          · subst hxk
            rw [lookup_bucketInsert_self]
            have := Option.isSome_iff_exists.mp hs
            obtain ⟨v, hv⟩ := this
            simp [hv]
          · rw [lookup_bucketInsert_other _ _ _ _ hxk]
        · rw [keys_bucketInsert, if_neg hs,
            List.filter_cons_of_pos (by
              simp [Option.isNone_iff_eq_none, Option.not_isSome_iff_eq_none.mp hs]),
            dedupKeepFirst_cons]
          have hfilter : (keysSeq db ps fl).filter (fun x =>
              (List.lookup x (bucketInsert (bucketOf acc.1 fl) (groupIdOf db dbid) i)).isNone) =
              ((keysSeq db ps fl).filter fun x =>
                (List.lookup x (bucketOf acc.1 fl)).isNone).filter fun x =>
                  x ≠ groupIdOf db dbid := by
            rw [List.filter_filter]
            apply List.filter_congr
            intro x _
            by_cases hxk : x = groupIdOf db dbid
            · subst hxk
              rw [lookup_bucketInsert_self]
              simp
            · rw [lookup_bucketInsert_other _ _ _ _ hxk]
              simp [hxk, Bool.and_comm]
          rw [hfilter, dedupKeepFirst_filter]
          simp
      · rw [if_neg hc]
        have hks : keysSeq db ((i, Node.Object dbid g tf) :: ps) fl = keysSeq db ps fl := by
          simp [keysSeq, objInfo, hc]
        rw [hks]

theorem bucketOf_empty (fl : Bool) : bucketOf ⟨[], []⟩ fl = [] := by
  cases fl <;> rfl

theorem getObjectNodes_lookup (scene : Scene) (db : Option PropDb) (fl : Bool) (k : String) :
    List.lookup k (bucketOf (getObjectNodes scene db).1 fl) =
      if selectedIdx db scene.nodes.enum k fl = [] then none
      else some (selectedIdx db scene.nodes.enum k fl) := by
  unfold getObjectNodes
  rw [foldl_classify_lookup, bucketOf_empty]
  simp

theorem getObjectNodes_keys (scene : Scene) (db : Option PropDb) (fl : Bool) :
    (bucketOf (getObjectNodes scene db).1 fl).map Prod.fst =
      dedupKeepFirst (keysSeq db scene.nodes.enum fl) := by
  unfold getObjectNodes
  rw [foldl_classify_keys, bucketOf_empty]
  have : (keysSeq db scene.nodes.enum fl).filter (fun k =>
      (List.lookup k ([] : Bucket)).isNone) = keysSeq db scene.nodes.enum fl := by
    apply List.filter_eq_self.mpr
    intro a _
    simp [List.lookup]
  rw [this]
  simp

theorem mem_selectedIdx (db : Option PropDb) (ps : List (Nat × Node)) (k : String) (fl : Bool)
    (i : Nat) :
    i ∈ selectedIdx db ps k fl ↔ ∃ nd, (i, nd) ∈ ps ∧ objInfo db nd = some (k, fl) := by
  simp only [selectedIdx, List.mem_filterMap]
  constructor
  · rintro ⟨⟨j, nd⟩, hmem, hf⟩
    cases hinfo : objInfo db nd with
    | none =>
      simp [hinfo] at hf
    | some pr =>
      obtain ⟨k2, f2⟩ := pr
      simp only [hinfo] at hf
      by_cases hcond : k2 = k ∧ f2 = fl
      · rw [if_pos hcond] at hf
        obtain ⟨rfl, rfl⟩ := hcond
        cases hf
        exact ⟨nd, hmem, hinfo⟩
      · rw [if_neg hcond] at hf
        cases hf
  · rintro ⟨nd, hmem, hinfo⟩
    refine ⟨(i, nd), hmem, ?_⟩
    simp [hinfo]

/-- C6: the GroupKey of an Object node is
`findPropertyRecursive(dbid, ["IFC:GLOBALID", "Element:IfcGUID"])` or, if
absent, `dbid-<dbid>` (this is `groupIdOf`); every Object node lands in the
single group of its GroupKey inside its classification bucket; each group
lists exactly the indices of the matching nodes in first-seen scene order
(`selectedIdx` walks `scene.nodes.enum` in order); bucket iteration order
is first-seen order of the GroupKeys (`dedupKeepFirst` of the key
sequence), and keys are not duplicated, so nodes sharing GroupKey and
bucket are merged into one group. -/
theorem c6_grouping_merge_order (scene : Scene) (db : Option PropDb) :
    (∀ i dbid g tf, scene.nodes[i]? = some (Node.Object dbid g tf) →
      ∃ l, List.lookup (groupIdOf db dbid)
          (bucketOf (getObjectNodes scene db).1 (objClass db dbid)) = some l ∧ i ∈ l) ∧
    (∀ fl k,
      List.lookup k (bucketOf (getObjectNodes scene db).1 fl) =
        if selectedIdx db scene.nodes.enum k fl = [] then none
        else some (selectedIdx db scene.nodes.enum k fl)) ∧
    (∀ fl, (bucketOf (getObjectNodes scene db).1 fl).map Prod.fst =
      dedupKeepFirst (keysSeq db scene.nodes.enum fl)) ∧
    (∀ fl, ((bucketOf (getObjectNodes scene db).1 fl).map Prod.fst).Nodup) := by
  refine ⟨?_, getObjectNodes_lookup scene db, getObjectNodes_keys scene db, ?_⟩
  · intro i dbid g tf h
    have hmem : i ∈ selectedIdx db scene.nodes.enum (groupIdOf db dbid) (objClass db dbid) := by
      rw [mem_selectedIdx]
      exact ⟨Node.Object dbid g tf, List.mk_mem_enum_iff_getElem?.mpr h, rfl⟩
    have hne : selectedIdx db scene.nodes.enum (groupIdOf db dbid) (objClass db dbid) ≠ [] :=
      List.ne_nil_of_mem hmem
    rw [getObjectNodes_lookup, if_neg hne]
    exact ⟨_, rfl, hmem⟩
  · intro fl
    rw [getObjectNodes_keys]
    exact dedupKeepFirst_nodup _

/-- C5: an Object node is placed in the opening bucket iff the property
database is present and its property `Element:IfcExportAs` equals exactly
the string `IfcOpeningElement`; with the database absent, the opening
bucket is empty and every Object node is grouped in the building bucket
under the fallback key `dbid-<dbid>` (the grouping pass is a total
function, so no crash occurs). -/
theorem c5_opening_classification (scene : Scene) (db : PropDb) (i dbid g : Nat)
    (tf : Option Transform) (h : scene.nodes[i]? = some (Node.Object dbid g tf)) :
    ((∃ k l, List.lookup k (getObjectNodes scene (some db)).1.opening = some l ∧ i ∈ l) ↔
      List.lookup "Element:IfcExportAs" (db.getProperties dbid) = some "IfcOpeningElement") ∧
    (getObjectNodes scene none).1.opening = [] ∧
    (∃ l, List.lookup ("dbid-" ++ toString dbid) (getObjectNodes scene none).1.building = some l ∧
      i ∈ l) := by
  have hop : (getObjectNodes scene (some db)).1.opening =
      bucketOf (getObjectNodes scene (some db)).1 true := rfl
  have hbl : (getObjectNodes scene none).1.building =
      bucketOf (getObjectNodes scene none).1 false := rfl
  refine ⟨?_, ?_, ?_⟩
  · constructor
    · rintro ⟨k, l, hl, hi⟩
      rw [hop, getObjectNodes_lookup] at hl
      by_cases hne : selectedIdx (some db) scene.nodes.enum k true = []
      · rw [if_pos hne] at hl
        cases hl
      · rw [if_neg hne] at hl
        cases hl
        rw [mem_selectedIdx] at hi
        obtain ⟨nd, henum, hinfo⟩ := hi
        have hnd : scene.nodes[i]? = some nd := List.mk_mem_enum_iff_getElem?.mp henum
        rw [h] at hnd
        cases hnd
        have hcls : objClass (some db) dbid = true := by
          have : objInfo (some db) (Node.Object dbid g tf) =
              some (groupIdOf (some db) dbid, objClass (some db) dbid) := rfl
          rw [this] at hinfo
          exact (Prod.mk.injEq _ _ _ _ ▸ Option.some.inj hinfo).2
        exact of_decide_eq_true hcls
    · intro hprop
      have hcls : objClass (some db) dbid = true := decide_eq_true hprop
      have hmem : i ∈ selectedIdx (some db) scene.nodes.enum (groupIdOf (some db) dbid) true := by
        rw [mem_selectedIdx]
        refine ⟨Node.Object dbid g tf, List.mk_mem_enum_iff_getElem?.mpr h, ?_⟩
        show some (groupIdOf (some db) dbid, objClass (some db) dbid) = _
        rw [hcls]
      have hne : selectedIdx (some db) scene.nodes.enum (groupIdOf (some db) dbid) true ≠ [] :=
        List.ne_nil_of_mem hmem
      refine ⟨groupIdOf (some db) dbid, _, ?_, hmem⟩
      rw [hop, getObjectNodes_lookup, if_neg hne]
  · have hkeys : keysSeq none scene.nodes.enum true = [] := by
      apply List.filterMap_eq_nil.mpr
      intro p _
      cases hp : p.2 with
      | Object dbid2 g2 tf2 => simp [objInfo, hp, objClass]
      | OtherNode j => simp [objInfo, hp]
    have := getObjectNodes_keys scene none true
    rw [hkeys] at this
    have hmap : ((getObjectNodes scene none).1.opening).map Prod.fst = [] := this
    exact List.map_eq_nil.mp hmap
  · have hmem : i ∈ selectedIdx none scene.nodes.enum ("dbid-" ++ toString dbid) false := by
      rw [mem_selectedIdx]
      exact ⟨Node.Object dbid g tf, List.mk_mem_enum_iff_getElem?.mpr h, rfl⟩
    have hne : selectedIdx none scene.nodes.enum ("dbid-" ++ toString dbid) false ≠ [] :=
      List.ne_nil_of_mem hmem
    refine ⟨_, ?_, hmem⟩
    rw [hbl, getObjectNodes_lookup, if_neg hne]

/-- Concrete property database for the grouping witnesses: dbid 5 is an
opening element; dbids 7 and 8 share the external identifier `guid-A`. -/
def dbW : PropDb :=
  ⟨fun dbid => if dbid = 5 then [("Element:IfcExportAs", "IfcOpeningElement")] else [],
   fun dbid _ => if dbid = 7 ∨ dbid = 8 then some "guid-A" else none⟩

/-- Concrete scene for the grouping witnesses: two regular Object nodes
sharing a GroupKey and one opening Object node. -/
def sceneW : Scene :=
  ⟨[Node.Object 7 0 none, Node.Object 8 0 none, Node.Object 5 0 none],
   [Geometry.Mesh [0, 0, 0, 1, 0, 0, 0, 1, 0] [0, 1, 2] none], []⟩

/-- Witness for C5 at a concrete input: node index 2 (dbid 5) is in the
opening bucket because its `Element:IfcExportAs` property is exactly
`IfcOpeningElement`; without a database the opening bucket is empty and
the node groups under `dbid-5`. -/
theorem c5_opening_classification_witness :
    ((∃ k l, List.lookup k (getObjectNodes sceneW (some dbW)).1.opening = some l ∧ 2 ∈ l) ↔
      List.lookup "Element:IfcExportAs" (dbW.getProperties 5) = some "IfcOpeningElement") ∧
    (getObjectNodes sceneW none).1.opening = [] ∧
    (∃ l, List.lookup ("dbid-" ++ toString 5) (getObjectNodes sceneW none).1.building = some l ∧
      2 ∈ l) :=
  c5_opening_classification sceneW dbW 2 5 0 none rfl

/-- Witness for C6 at a concrete input: node index 0 (dbid 7) lands in the
group of its GroupKey in its bucket. -/
theorem c6_grouping_merge_order_witness :
    ∃ l, List.lookup (groupIdOf (some dbW) 7)
        (bucketOf (getObjectNodes sceneW (some dbW)).1 (objClass (some dbW) 7)) = some l ∧
      0 ∈ l :=
  (c6_grouping_merge_order sceneW (some dbW)).1 0 7 0 none rfl

/-!
## Streaming writer (`Writer.writeObjects`)

The writer state mirrors the source's mutable locals: the list of payloads
passed to `fse.appendFileSync` (the file's content is their
concatenation), the in-memory `output` line buffer, and the running
`indexOffset` (initialised to 1).  `logs` collects the strings passed to
`this.options.log` during the call (the source makes no such call inside
`writeObjects`).  The flush threshold (literally `50000` in the source) is
kept as a parameter `t` of the auxiliary function so that the spec's
claims quantifying over threshold values can be stated; `writeObjects`
itself fixes `t = 50000`.
-/

/-- Mutable state of one `writeObjects` call. -/
structure WState where
  appends : List String
  buffer : List String
  indexOffset : Nat
  logs : List String
deriving DecidableEq, Repr

/-- Result of one `writeObjects` call: the appended payloads (whose
concatenation is the output file's byte content) and the log lines. -/
structure WriteResult where
  appends : List String
  logs : List String
deriving DecidableEq, Repr

/-- The byte content of the output file: concatenation of all payloads
handed to `appendFileSync` (the file is truncated to empty first). -/
def fileContent (r : WriteResult) : String :=
  String.join r.appends

/-- One vertex line: position transformed by the world matrix, scaled by
the root scale, each coordinate through `myFixed4`. -/
def vertexLine (m : Mat4) (rs : ℚ) (vs : List ℚ) (v : Nat) : String :=
  let pos := (m.applyToV3 ⟨vs.getD (3 * v) 0, vs.getD (3 * v + 1) 0, vs.getD (3 * v + 2) 0⟩).multiplyScalar rs
  "v " ++ (numStr (myFixed4 pos.x) ++ " " ++ numStr (myFixed4 pos.y) ++ " " ++
    numStr (myFixed4 pos.z))

/-- One normal line: normal transformed by the rotation-only matrix, each
coordinate through `myFixed2` (no scaling by root scale). -/
def normalLine (r : Mat4) (ns : List ℚ) (v : Nat) : String :=
  let n := r.applyToV3 ⟨ns.getD (3 * v) 0, ns.getD (3 * v + 1) 0, ns.getD (3 * v + 2) 0⟩
  "vn " ++ (numStr (myFixed2 n.x) ++ " " ++ numStr (myFixed2 n.y) ++ " " ++
    numStr (myFixed2 n.z))

/-- `faceString` from the source: vertex//normal pairs when normals are
written, vertex-only otherwise. -/
def faceString (f0 f1 f2 : Nat) (withNormals : Bool) : String :=
  if withNormals then
    "f " ++ (toString f0 ++ "//" ++ toString f0 ++ " " ++ toString f1 ++ "//" ++ toString f1 ++
      " " ++ toString f2 ++ "//" ++ toString f2)
  else
    "f " ++ (toString f0 ++ " " ++ toString f1 ++ " " ++ toString f2)

/-- The lines pushed for one Mesh geometry: vertex lines, then (unless
`skipNormals` or the geometry has no normals) normal lines, then face
lines whose indices are `offset + localIndex`.  Loop bounds are
`length / 3` as in the source (the scene invariant makes the division
exact). -/
def meshLines (skipNormals : Bool) (rs : ℚ) (m : Mat4) (offset : Nat)
    (vs : List ℚ) (idx : List Nat) (ns : Option (List ℚ)) : List String :=
  let rot := m.extractRotation
  let vls := (List.range (vs.length / 3)).map (vertexLine m rs vs)
  let wn := !skipNormals && ns.isSome
  let nls :=
    if skipNormals then []
    else
      match ns with
      | some nrm => (List.range (nrm.length / 3)).map (normalLine rot nrm)
      | none => []
  let fls := (List.range (idx.length / 3)).map fun f =>
    faceString (offset + idx.getD (3 * f) 0) (offset + idx.getD (3 * f + 1) 0)
      (offset + idx.getD (3 * f + 2) 0) wn
  vls ++ nls ++ fls

/-- Processing of one member node inside a group: non-Object kinds throw
the structural-invariant error; non-Mesh geometry is skipped silently (no
lines, no log); Mesh geometry appends its lines, advances the offset by
the vertex count, and flushes the whole buffer when its line count exceeds
the threshold `t` (payload `output.flatten("\n") + "\n"`). -/
def memberStep (t : Nat) (skipNormals : Bool) (scene : Scene) (rs : ℚ) (st : WState)
    (nid : Nat) : Except String WState :=
  match scene.getNode nid with
  | Node.OtherNode k =>
    Except.error ("Node kind " ++ toString k ++ " should have been excluded")
  | Node.Object _ g tf =>
    match scene.getGeometry g with
    | Geometry.OtherGeom _ => Except.ok st
    | Geometry.Mesh vs idx ns =>
      let lines := meshLines skipNormals rs (nodeTransform tf) st.indexOffset vs idx ns
      let buf := st.buffer ++ lines
      let off := st.indexOffset + vs.length / 3
      if buf.length > t then
        Except.ok ⟨st.appends ++ [joinLines buf ++ "\n"], [], off, st.logs⟩
      else
        Except.ok ⟨st.appends, buf, off, st.logs⟩

/-- Processing of one group: push the header line `o <GroupKey>` (before
looking at any member), then process the members in list order. -/
def groupStep (t : Nat) (skipNormals : Bool) (scene : Scene) (rs : ℚ) (st : WState)
    (gp : String × List Nat) : Except String WState :=
  gp.2.foldlM (memberStep t skipNormals scene rs)
    { st with buffer := st.buffer ++ ["o " ++ gp.1] }

/-- `Writer.writeObjects` with the flush threshold as a parameter: truncate
the file, fold the groups in bucket order from the initial state
(`output = []`, `indexOffset = 1`), then append the final
`output.flatten("\n")` (no trailing newline). -/
def writeObjectsAux (t : Nat) (skipNormals : Bool) (bucket : Bucket) (scene : Scene) (rs : ℚ) :
    Except String WriteResult := do
  let st ← bucket.foldlM (groupStep t skipNormals scene rs) ⟨[], [], 1, []⟩
  Except.ok ⟨st.appends ++ [joinLines st.buffer], st.logs⟩

/-- `Writer.writeObjects` with the source's literal threshold of 50000. -/
def writeObjects (skipNormals : Bool) (bucket : Bucket) (scene : Scene) (rs : ℚ) :
    Except String WriteResult :=
  writeObjectsAux 50000 skipNormals bucket scene rs

/-- `Writer.write`: compute the root scale once, group once, run the writer
for the building bucket then for the opening bucket (independent calls,
each starting from a fresh state), and log completion. -/
def writeTop (skipNormals : Bool) (scene : Scene) (db : Option PropDb) :
    Except String (WriteResult × WriteResult × List String) := do
  let rs := getRootScale scene
  let bks := getObjectNodes scene db
  let reg ← writeObjects skipNormals bks.1.building scene rs
  let opn ← writeObjects skipNormals bks.1.opening scene rs
  Except.ok (reg, opn, bks.2 ++ ["Finished writing OBJ"])

/-!
## Pure line-level view of the writer

`memberLines`/`blocksAt`/`linesAt` compute, with an explicit running
offset, the lines the writer pushes; the offset entering a member is the
initial offset plus the vertex counts of all previously written meshes,
across group boundaries.
-/

/-- Vertex count by which a member advances the running offset. -/
def memberVerts (scene : Scene) (nid : Nat) : Nat :=
  match scene.getNode nid with
  | Node.Object _ g _ =>
    match scene.getGeometry g with
    | Geometry.Mesh vs _ _ => vs.length / 3
    | Geometry.OtherGeom _ => 0
  | Node.OtherNode _ => 0

/-- Lines contributed by one member at a given running offset. -/
def memberLines (skipNormals : Bool) (scene : Scene) (rs : ℚ) (offset : Nat) (nid : Nat) :
    List String :=
  match scene.getNode nid with
  | Node.Object _ g tf =>
    match scene.getGeometry g with
    | Geometry.Mesh vs idx ns => meshLines skipNormals rs (nodeTransform tf) offset vs idx ns
    | Geometry.OtherGeom _ => []
  | Node.OtherNode _ => []

/-- Total vertex count of a member list. -/
def membersVerts (scene : Scene) (ms : List Nat) : Nat :=
  (ms.map (memberVerts scene)).sum

/-- Per-member line blocks of a group, threading the running offset. -/
def memberBlocks (skipNormals : Bool) (scene : Scene) (rs : ℚ) :
    List Nat → Nat → List (List String)
  | [], _ => []
  | m :: ms, o =>
    memberLines skipNormals scene rs o m ::
      memberBlocks skipNormals scene rs ms (o + memberVerts scene m)

/-- Total vertex count of a bucket. -/
def bucketVerts (scene : Scene) (b : Bucket) : Nat :=
  (b.map fun gp => membersVerts scene gp.2).sum

/-- Blocks of a bucket: for each group, its header line as one block
followed by one block per member; the running offset continues across
group boundaries. -/
def blocksAt (skipNormals : Bool) (scene : Scene) (rs : ℚ) : Bucket → Nat → List (List String)
  | [], _ => []
  | gp :: gps, o =>
    (["o " ++ gp.1] :: memberBlocks skipNormals scene rs gp.2 o) ++
      blocksAt skipNormals scene rs gps (o + membersVerts scene gp.2)

/-- All lines of a bucket in emission order. -/
def linesAt (skipNormals : Bool) (scene : Scene) (rs : ℚ) (bucket : Bucket) (o : Nat) :
    List String :=
  (blocksAt skipNormals scene rs bucket o).flatten

/-!
## Chunk invariant of the streaming fold

`ChunkInv t B ap bu` says: the payloads `ap` appended so far are exactly
the renderings of a partition prefix `css` of the emitted blocks `B`, each
flushed chunk being a run of whole blocks whose line count exceeded the
threshold, and the current buffer `bu` holds the lines of the remaining
blocks `pending`.
-/

def ChunkInv (t : Nat) (B : List (List String)) (ap bu : List String) : Prop :=
  ∃ (css : List (List (List String))) (pending : List (List String)),
    css.flatten ++ pending = B ∧
    ap = css.map (fun c => joinLines c.flatten ++ "\n") ∧
    (∀ c ∈ css, t < c.flatten.length) ∧
    bu = pending.flatten

theorem chunkInv_empty (t : Nat) : ChunkInv t [] [] [] :=
  ⟨[], [], rfl, rfl, by simp, rfl⟩

theorem chunkInv_push {t : Nat} {B : List (List String)} {ap bu : List String}
    (hinv : ChunkInv t B ap bu) (ls : List String) :
    ChunkInv t (B ++ [ls]) ap (bu ++ ls) := by
  obtain ⟨css, pending, hB, happ, hb, hbuf⟩ := hinv
  refine ⟨css, pending ++ [ls], ?_, happ, hb, ?_⟩
  · rw [← List.append_assoc, hB]
  · simp [hbuf, List.flatten_append]

theorem chunkInv_flush {t : Nat} {B : List (List String)} {ap bu : List String}
    (hinv : ChunkInv t B ap bu) (ls : List String) (hlen : t < (bu ++ ls).length) :
    ChunkInv t (B ++ [ls]) (ap ++ [joinLines (bu ++ ls) ++ "\n"]) [] := by
  obtain ⟨css, pending, hB, happ, hb, hbuf⟩ := hinv
  refine ⟨css ++ [pending ++ [ls]], [], ?_, ?_, ?_, rfl⟩
  · rw [List.append_nil, List.flatten_append, ← hB]
    simp
  · rw [List.map_append, ← happ]
    simp [hbuf, List.flatten_append]
  · intro c hc
    rcases List.mem_append.mp hc with hc | hc
    · exact hb c hc
    · have : c = pending ++ [ls] := by simpa using hc
      subst this
      simpa [hbuf] using hlen

theorem exceptBindOk {ε α β : Type} {x : Except ε α} {g : α → Except ε β} {r : β}
    (h : x >>= g = Except.ok r) : ∃ a, x = Except.ok a ∧ g a = Except.ok r := by
  cases x with
  | ok a => exact ⟨a, rfl, h⟩
  | error e => simp [Bind.bind, Except.bind] at h

theorem memberStep_cases (t : Nat) (skipN : Bool) (scene : Scene) (rs : ℚ) (st : WState)
    (nid : Nat) (st' : WState) (h : memberStep t skipN scene rs st nid = Except.ok st') :
    st'.indexOffset = st.indexOffset + memberVerts scene nid ∧
    st'.logs = st.logs ∧
    ((st'.appends = st.appends ∧
        st'.buffer = st.buffer ++ memberLines skipN scene rs st.indexOffset nid) ∨
      (t < (st.buffer ++ memberLines skipN scene rs st.indexOffset nid).length ∧
        st'.appends = st.appends ++
          [joinLines (st.buffer ++ memberLines skipN scene rs st.indexOffset nid) ++ "\n"] ∧
        st'.buffer = [])) := by
  simp only [memberStep] at h
  cases hn : scene.getNode nid with
  | OtherNode k =>
    simp only [hn] at h
    exact Except.noConfusion h
  | Object dbid g tf =>
    simp only [hn] at h
    simp only [memberVerts, memberLines, hn]
    cases hg : scene.getGeometry g with
    | OtherGeom k =>
      simp only [hg] at h
      cases h
      simp
    | Mesh vs idx ns =>
      simp only [hg] at h
      simp only [hg]
      by_cases hlen :
          (st.buffer ++ meshLines skipN rs (nodeTransform tf) st.indexOffset vs idx ns).length > t
      · rw [if_pos hlen] at h
        cases h
        exact ⟨rfl, rfl, Or.inr ⟨hlen, rfl, rfl⟩⟩
      · rw [if_neg hlen] at h
        cases h
        exact ⟨rfl, rfl, Or.inl ⟨rfl, rfl⟩⟩

theorem membersFold_inv (t : Nat) (skipN : Bool) (scene : Scene) (rs : ℚ) (ms : List Nat) :
    ∀ (st st' : WState) (B : List (List String)),
      ms.foldlM (memberStep t skipN scene rs) st = Except.ok st' →
      ChunkInv t B st.appends st.buffer →
      ChunkInv t (B ++ memberBlocks skipN scene rs ms st.indexOffset) st'.appends st'.buffer ∧
        st'.indexOffset = st.indexOffset + membersVerts scene ms ∧
        st'.logs = st.logs := by
  induction ms with
  | nil =>
    intro st st' B h hinv
    simp only [List.foldlM_nil] at h
    cases h
    simpa [memberBlocks, membersVerts] using hinv
  | cons m ms ih =>
    intro st st' B h hinv
    rw [List.foldlM_cons] at h
    obtain ⟨s1, h1, h2⟩ := exceptBindOk h
    obtain ⟨hoff, hlogs, hcase⟩ := memberStep_cases t skipN scene rs st m s1 h1
    have hinv1 : ChunkInv t (B ++ [memberLines skipN scene rs st.indexOffset m])
        s1.appends s1.buffer := by
      rcases hcase with ⟨ha, hb⟩ | ⟨hl, ha, hb⟩
      · rw [ha, hb]
        exact chunkInv_push hinv _
      · rw [ha, hb]
        exact chunkInv_flush hinv _ hl
    obtain ⟨hinv2, hoff2, hlogs2⟩ := ih s1 st' _ h2 hinv1
    refine ⟨?_, ?_, hlogs2.trans hlogs⟩
    · have hblocks : memberBlocks skipN scene rs (m :: ms) st.indexOffset =
          memberLines skipN scene rs st.indexOffset m ::
            memberBlocks skipN scene rs ms (st.indexOffset + memberVerts scene m) := rfl
      rw [hblocks]
      rw [hoff] at hinv2
      simpa [List.append_assoc] using hinv2
    · rw [hoff2, hoff]
      simp [membersVerts, Nat.add_assoc]

theorem groupStep_inv (t : Nat) (skipN : Bool) (scene : Scene) (rs : ℚ)
    (st st' : WState) (gp : String × List Nat) (B : List (List String))
    (h : groupStep t skipN scene rs st gp = Except.ok st')
    (hinv : ChunkInv t B st.appends st.buffer) :
    ChunkInv t
        (B ++ (["o " ++ gp.1] :: memberBlocks skipN scene rs gp.2 st.indexOffset))
        st'.appends st'.buffer ∧
      st'.indexOffset = st.indexOffset + membersVerts scene gp.2 ∧
      st'.logs = st.logs := by
  unfold groupStep at h
  have hinv1 : ChunkInv t (B ++ [["o " ++ gp.1]]) st.appends
      (st.buffer ++ ["o " ++ gp.1]) := chunkInv_push hinv _
  obtain ⟨hinv2, hoff2, hlogs2⟩ :=
    membersFold_inv t skipN scene rs gp.2 { st with buffer := st.buffer ++ ["o " ++ gp.1] }
      st' _ h hinv1
  refine ⟨?_, hoff2, hlogs2⟩
  simpa [List.append_assoc] using hinv2

theorem groupsFold_inv (t : Nat) (skipN : Bool) (scene : Scene) (rs : ℚ) (gps : Bucket) :
    ∀ (st st' : WState) (B : List (List String)),
      gps.foldlM (groupStep t skipN scene rs) st = Except.ok st' →
      ChunkInv t B st.appends st.buffer →
      ChunkInv t (B ++ blocksAt skipN scene rs gps st.indexOffset) st'.appends st'.buffer ∧
        st'.indexOffset = st.indexOffset + bucketVerts scene gps ∧
        st'.logs = st.logs := by
  induction gps with
  | nil =>
    intro st st' B h hinv
    simp only [List.foldlM_nil] at h
    cases h
    simpa [blocksAt, bucketVerts] using hinv
  | cons gp gps ih =>
    intro st st' B h hinv
    rw [List.foldlM_cons] at h
    obtain ⟨s1, h1, h2⟩ := exceptBindOk h
    obtain ⟨hinv1, hoff1, hlogs1⟩ := groupStep_inv t skipN scene rs st s1 gp B h1 hinv
    obtain ⟨hinv2, hoff2, hlogs2⟩ := ih s1 st' _ h2 hinv1
    refine ⟨?_, ?_, hlogs2.trans hlogs1⟩
    · have hblocks : blocksAt skipN scene rs (gp :: gps) st.indexOffset =
          (["o " ++ gp.1] :: memberBlocks skipN scene rs gp.2 st.indexOffset) ++
            blocksAt skipN scene rs gps (st.indexOffset + membersVerts scene gp.2) := rfl
      rw [hblocks]
      rw [hoff1] at hinv2
      simpa [List.append_assoc] using hinv2
    · rw [hoff2, hoff1]
      simp [bucketVerts, Nat.add_assoc]

/-- Master characterisation of one writer call: on success, the appended
payloads are the renderings of a block-aligned chunk partition of the
bucket's blocks (offset starting at 1), every flushed chunk exceeded the
threshold, the final payload is the newline-join of the remaining lines,
and no log line is ever emitted. -/
theorem writeObjectsAux_spec (t : Nat) (skipN : Bool) (bucket : Bucket) (scene : Scene)
    (rs : ℚ) (out : WriteResult)
    (h : writeObjectsAux t skipN bucket scene rs = Except.ok out) :
    ∃ (css : List (List (List String))) (pending : List (List String)),
      css.flatten ++ pending = blocksAt skipN scene rs bucket 1 ∧
      out.appends = css.map (fun c => joinLines c.flatten ++ "\n") ++ [joinLines pending.flatten] ∧
      (∀ c ∈ css, t < c.flatten.length) ∧
      out.logs = [] := by
  unfold writeObjectsAux at h
  obtain ⟨st, hfold, hpure⟩ := exceptBindOk h
  obtain ⟨hinv, _, hlogs⟩ :=
    groupsFold_inv t skipN scene rs bucket ⟨[], [], 1, []⟩ st [] hfold (chunkInv_empty t)
  obtain ⟨css, pending, hB, happ, hbound, hbuf⟩ := hinv
  cases hpure
  refine ⟨css, pending, by simpa using hB, ?_, hbound, hlogs⟩
  simp only [happ, hbuf]

/-!
## String-level lemmas

`joinLines` is JS `Array.join("\n")`; the file content is the
concatenation of the appended payloads.
-/

theorem strAppend_assoc (a b c : String) : a ++ b ++ c = a ++ (b ++ c) := by
  apply String.ext
  simp [String.data_append, List.append_assoc]

theorem strAppend_empty (a : String) : a ++ "" = a := by
  apply String.ext
  simp [String.data_append]

theorem strEmpty_append (a : String) : "" ++ a = a := by
  apply String.ext
  simp [String.data_append]

theorem strFoldl_shift (l : List String) :
    ∀ a : String, l.foldl (· ++ ·) a = a ++ l.foldl (· ++ ·) "" := by
  induction l with
  | nil =>
    intro a
    simp [strAppend_empty]
  | cons x l ih =>
    intro a
    simp only [List.foldl_cons]
    rw [ih (a ++ x), ih ("" ++ x), strEmpty_append, strAppend_assoc]

theorem strJoin_cons (x : String) (l : List String) :
    String.join (x :: l) = x ++ String.join l := by
  show (x :: l).foldl (· ++ ·) "" = x ++ l.foldl (· ++ ·) ""
  rw [List.foldl_cons, strFoldl_shift l ("" ++ x), strEmpty_append]

theorem strJoin_nil : String.join [] = "" :=
  rfl

theorem strJoin_append (a b : List String) :
    String.join (a ++ b) = String.join a ++ String.join b := by
  induction a with
  | nil => rw [List.nil_append, strJoin_nil, strEmpty_append]
  | cons x a ih => rw [List.cons_append, strJoin_cons, strJoin_cons, ih, strAppend_assoc]

theorem strJoin_singleton (x : String) : String.join [x] = x := by
  rw [strJoin_cons, strJoin_nil, strAppend_empty]

theorem joinLines_append (a b : List String) (ha : a ≠ []) (hb : b ≠ []) :
    joinLines (a ++ b) = joinLines a ++ "\n" ++ joinLines b := by
  induction a with
  | nil => exact absurd rfl ha
  | cons x a ih =>
    cases a with
    | nil =>
      cases b with
      | nil => exact absurd rfl hb
      | cons y b => simp [joinLines]
    | cons z a2 =>
      have ih2 := ih (by simp)
      show joinLines (x :: ((z :: a2) ++ b)) = _
      have h1 : joinLines (x :: ((z :: a2) ++ b)) =
          x ++ "\n" ++ joinLines ((z :: a2) ++ b) := by
        simp [joinLines]
      have h2 : joinLines (x :: z :: a2) = x ++ "\n" ++ joinLines (z :: a2) := by
        simp [joinLines]
      rw [h1, ih2, h2]
      simp [strAppend_assoc]

theorem flatten_ne_nil_of_head {c : List String} {cs : List (List String)} (hc : c ≠ []) :
    (c :: cs).flatten ≠ [] := by
  intro hh
  rw [List.flatten_cons] at hh
  exact hc (List.append_eq_nil.mp hh).1

theorem strJoin_renderChunks (cs : List (List String)) :
    cs ≠ [] → (∀ c ∈ cs, c ≠ []) →
      String.join (cs.map fun c => joinLines c ++ "\n") = joinLines cs.flatten ++ "\n" := by
  induction cs with
  | nil => intro hcs _; exact absurd rfl hcs
  | cons c cs ih =>
    intro _ hne
    rw [List.map_cons, strJoin_cons]
    cases cs with
    | nil => simp [strJoin_nil, strAppend_empty]
    | cons c2 cs2 =>
      rw [ih (by simp) fun x hx => hne x (List.mem_cons_of_mem _ hx)]
      have hcne : c ≠ [] := hne c (List.mem_cons_self _ _)
      have hfne : (c2 :: cs2).flatten ≠ [] :=
        flatten_ne_nil_of_head (hne c2 (by simp))
      have hfl : (c :: c2 :: cs2).flatten = c ++ (c2 :: cs2).flatten := rfl
      rw [hfl, joinLines_append c ((c2 :: cs2).flatten) hcne hfne]
      simp [strAppend_assoc, List.flatten_cons]

theorem flatten_map_flatten (css : List (List (List String))) :
    (css.map fun c => c.flatten).flatten = css.flatten.flatten := by
  induction css with
  | nil => rfl
  | cons c css ih => simp [List.flatten_cons, ih]

/-- On success, the file content is the newline-join of the bucket's lines,
with at most one extra trailing newline (present exactly when at least one
flush occurred and the buffer finished empty). -/
theorem writeContent_cases (t : Nat) (skipN : Bool) (bucket : Bucket) (scene : Scene)
    (rs : ℚ) (out : WriteResult)
    (h : writeObjectsAux t skipN bucket scene rs = Except.ok out) :
    fileContent out = joinLines (linesAt skipN scene rs bucket 1) ∨
      fileContent out = joinLines (linesAt skipN scene rs bucket 1) ++ "\n" := by
  obtain ⟨css, pending, hB, happ, hbound, _⟩ :=
    writeObjectsAux_spec t skipN bucket scene rs out h
  have hlines : linesAt skipN scene rs bucket 1 = css.flatten.flatten ++ pending.flatten := by
    rw [linesAt, ← hB, List.flatten_append]
  have hcontent : fileContent out =
      String.join (css.map fun c => joinLines c.flatten ++ "\n") ++ joinLines pending.flatten := by
    rw [fileContent, happ, strJoin_append, strJoin_singleton]
  cases hcss : css with
  | nil =>
    left
    rw [hcontent, hcss, hlines, hcss]
    simp [strJoin_nil, strEmpty_append]
  | cons c0 css2 =>
    have hne : ∀ c ∈ css.map (fun c => c.flatten), c ≠ [] := by
      intro c hc
      obtain ⟨c1, hc1, rfl⟩ := List.mem_map.mp hc
      intro hnil
      have := hbound c1 hc1
      rw [hnil] at this
      simp at this
    have hmapne : css.map (fun c => c.flatten) ≠ [] := by
      rw [hcss]
      simp
    have hrender :
        String.join (css.map fun c => joinLines c.flatten ++ "\n") =
          joinLines css.flatten.flatten ++ "\n" := by
      have hmm : css.map (fun c => joinLines c.flatten ++ "\n") =
          (css.map fun c => c.flatten).map fun c => joinLines c ++ "\n" := by
        rw [List.map_map]
        rfl
      rw [hmm, strJoin_renderChunks _ hmapne hne, flatten_map_flatten]
    by_cases hp : pending.flatten = []
    · right
      rw [hcontent, hrender, hp, hlines, hp, List.append_nil]
      show _ ++ joinLines [] = _
      have : joinLines [] = "" := rfl
      rw [this, strAppend_empty]
    · left
      have hc0 : c0.flatten ≠ [] := by
        have := hne c0.flatten (by rw [hcss]; simp)
        exact this
      have hcssfl : css.flatten.flatten ≠ [] := by
        rw [hcss]
        have hfl : ((c0 :: css2).flatten : List (List String)) = c0 ++ css2.flatten := rfl
        rw [hfl, List.flatten_append]
        intro hh
        exact hc0 (List.append_eq_nil.mp hh).1
      rw [hcontent, hrender, hlines,
        joinLines_append css.flatten.flatten pending.flatten hcssfl hp]

theorem exceptOfToOption {ε α : Type} {x : Except ε α} {v : α}
    (h : x.toOption = some v) : x = Except.ok v := by
  cases x with
  | ok a =>
    simp only [Except.toOption] at h
    cases h
    rfl
  | error e => simp [Except.toOption] at h

/-- C1: changing the flush threshold can only change the file content by
one optional trailing newline; for any two thresholds on the same input,
on success the two contents are equal or differ by exactly one final
`"\n"` (each is the newline-join of the same line sequence, with the extra
`"\n"` present exactly when a flush occurred and the buffer finished
empty).  In particular flush boundaries never fall inside a line, but the
contents are not always byte-identical. -/
theorem c1_threshold_upto_trailing_newline (t₁ t₂ : Nat) (skipN : Bool) (bucket : Bucket)
    (scene : Scene) (rs : ℚ) (out₁ out₂ : WriteResult)
    (h₁ : writeObjectsAux t₁ skipN bucket scene rs = Except.ok out₁)
    (h₂ : writeObjectsAux t₂ skipN bucket scene rs = Except.ok out₂) :
    fileContent out₁ = fileContent out₂ ∨
      fileContent out₁ = fileContent out₂ ++ "\n" ∨
      fileContent out₂ = fileContent out₁ ++ "\n" := by
  rcases writeContent_cases t₁ skipN bucket scene rs out₁ h₁ with hc1 | hc1 <;>
    rcases writeContent_cases t₂ skipN bucket scene rs out₂ h₂ with hc2 | hc2
  · left
    rw [hc1, hc2]
  · right
    right
    rw [hc1, hc2]
  · right
    left
    rw [hc1, hc2]
  · left
    rw [hc1, hc2]

/-- Concrete scene for the writer counterexamples: a single Object node
with a one-triangle mesh, identity transform, no normals. -/
def sceneC1 : Scene :=
  ⟨[Node.Object 7 0 none], [Geometry.Mesh [0, 0, 0, 1, 0, 0, 0, 1, 0] [0, 1, 2] none], []⟩

/-- Its one-group bucket, as built by the grouping pass without a database. -/
def bucketC1 : Bucket :=
  [("dbid-7", [0])]

/-- C1 counterexample: thresholds 1 and 10⁶ produce different byte content
on the same scene — with threshold 1 the single node triggers a flush
(payload ends with `"\n"`) and the final append is empty, so the file ends
with a newline; with threshold 10⁶ no flush occurs and the file has no
trailing newline.  Output is therefore not byte-identical across
threshold values, refuting the claim as stated. -/
theorem c1_counterexample :
    (writeObjectsAux 1 false bucketC1 sceneC1 1).toOption.map fileContent ≠
      (writeObjectsAux 1000000 false bucketC1 sceneC1 1).toOption.map fileContent := by
  with_unfolding_all decide

/-- Concrete writer results for the two thresholds of the C1 witness. -/
def outC1a : WriteResult :=
  ⟨["o dbid-7\nv 0 0 0\nv 1 0 0\nv 0 1 0\nf 1 2 3\n", ""], []⟩

/-- Concrete writer result for the large threshold of the C1 witness. -/
def outC1b : WriteResult :=
  ⟨["o dbid-7\nv 0 0 0\nv 1 0 0\nv 0 1 0\nf 1 2 3"], []⟩

/-- Witness for the amended C1 at a concrete input. -/
theorem c1_threshold_upto_trailing_newline_witness :
    fileContent outC1a = fileContent outC1b ∨
      fileContent outC1a = fileContent outC1b ++ "\n" ∨
      fileContent outC1b = fileContent outC1a ++ "\n" :=
  c1_threshold_upto_trailing_newline 1 1000000 false bucketC1 sceneC1 1 outC1a outC1b
    (exceptOfToOption (by with_unfolding_all decide))
    (exceptOfToOption (by with_unfolding_all decide))

/-- The node at index `j` is an Object node. -/
def isObjectNode (scene : Scene) (j : Nat) : Bool :=
  match scene.getNode j with
  | Node.Object _ _ _ => true
  | Node.OtherNode _ => false

/-- The node at index `j` is an Object node whose geometry is a Mesh. -/
def memberMesh (scene : Scene) (j : Nat) : Bool :=
  match scene.getNode j with
  | Node.Object _ g _ =>
    match scene.getGeometry g with
    | Geometry.Mesh _ _ _ => true
    | Geometry.OtherGeom _ => false
  | Node.OtherNode _ => false

theorem memberStep_skip (t : Nat) (skipN : Bool) (scene : Scene) (rs : ℚ) (st : WState)
    (j : Nat) (hobj : isObjectNode scene j = true) (hmesh : memberMesh scene j = false) :
    memberStep t skipN scene rs st j = Except.ok st := by
  unfold memberStep
  unfold isObjectNode at hobj
  unfold memberMesh at hmesh
  cases hn : scene.getNode j with
  | OtherNode k =>
    simp only [hn] at hobj
    exact Bool.noConfusion hobj
  | Object dbid g tf =>
    simp only [hn] at hmesh
    cases hg : scene.getGeometry g with
    | Mesh vs idx ns =>
      simp only [hg] at hmesh
      exact Bool.noConfusion hmesh
    | OtherGeom k =>
      simp only [hn, hg]

theorem bindCongr {ε α β : Type} (x : Except ε α) (f g : α → Except ε β)
    (h : ∀ a, f a = g a) : x >>= f = x >>= g := by
  cases x with
  | ok a => simpa [Bind.bind, Except.bind] using h a
  | error e => simp [Bind.bind, Except.bind]

theorem groupStep_erase (t : Nat) (skipN : Bool) (scene : Scene) (rs : ℚ)
    (id : String) (ms₁ ms₂ : List Nat) (j : Nat)
    (hobj : isObjectNode scene j = true) (hmesh : memberMesh scene j = false) (st : WState) :
    groupStep t skipN scene rs st (id, ms₁ ++ j :: ms₂) =
      groupStep t skipN scene rs st (id, ms₁ ++ ms₂) := by
  unfold groupStep
  rw [List.foldlM_append, List.foldlM_append]
  apply bindCongr
  intro s
  rw [List.foldlM_cons, memberStep_skip t skipN scene rs s j hobj hmesh]
  rfl

theorem writeObjectsAux_erase (t : Nat) (skipN : Bool) (scene : Scene) (rs : ℚ)
    (b₁ b₂ : Bucket) (id : String) (ms₁ ms₂ : List Nat) (j : Nat)
    (hobj : isObjectNode scene j = true) (hmesh : memberMesh scene j = false) :
    writeObjectsAux t skipN (b₁ ++ (id, ms₁ ++ j :: ms₂) :: b₂) scene rs =
      writeObjectsAux t skipN (b₁ ++ (id, ms₁ ++ ms₂) :: b₂) scene rs := by
  unfold writeObjectsAux
  have hfold : ∀ st : WState,
      (b₁ ++ (id, ms₁ ++ j :: ms₂) :: b₂).foldlM (groupStep t skipN scene rs) st =
        (b₁ ++ (id, ms₁ ++ ms₂) :: b₂).foldlM (groupStep t skipN scene rs) st := by
    intro st
    rw [List.foldlM_append, List.foldlM_append]
    apply bindCongr
    intro s
    rw [List.foldlM_cons, List.foldlM_cons,
      groupStep_erase t skipN scene rs id ms₁ ms₂ j hobj hmesh s]
  rw [hfold]

/-- C7 (amended): during the write pass, a member Object node whose
geometry is not a Mesh is skipped silently — `writeObjects` never emits
any log line (its log list is always empty on success), and removing such
a member from its group leaves the writer's result unchanged (the skip is
not an error). -/
theorem c7_nonmesh_skip_is_silent (t : Nat) (skipN : Bool) (scene : Scene) (rs : ℚ)
    (bucket : Bucket) :
    (∀ out, writeObjectsAux t skipN bucket scene rs = Except.ok out → out.logs = []) ∧
    (∀ b₁ b₂ id ms₁ ms₂ j, bucket = b₁ ++ (id, ms₁ ++ j :: ms₂) :: b₂ →
      isObjectNode scene j = true → memberMesh scene j = false →
      writeObjectsAux t skipN bucket scene rs =
        writeObjectsAux t skipN (b₁ ++ (id, ms₁ ++ ms₂) :: b₂) scene rs) := by
  constructor
  · intro out h
    obtain ⟨_, _, _, _, _, hlogs⟩ := writeObjectsAux_spec t skipN bucket scene rs out h
    exact hlogs
  · rintro b₁ b₂ id ms₁ ms₂ j rfl hobj hmesh
    exact writeObjectsAux_erase t skipN scene rs b₁ b₂ id ms₁ ms₂ j hobj hmesh

/-- Concrete scene for the C7 counterexample: one Object node whose
geometry is not a Mesh. -/
def sceneC7 : Scene :=
  ⟨[Node.Object 5 0 none], [Geometry.OtherGeom 2], []⟩

/-- Its one-group bucket. -/
def bucketC7 : Bucket :=
  [("dbid-5", [0])]

/-- C7 counterexample: the claim says the skip of a non-Mesh member is
logged; but on this scene the member (an Object node with non-Mesh
geometry) is skipped — the output holds only the group header, with no
vertex or face lines — and the emitted log list is empty: the skip is
silent, refuting the claim as stated. -/
theorem c7_counterexample :
    writeObjects false bucketC7 sceneC7 1 = Except.ok ⟨["o dbid-5"], []⟩ ∧
      memberMesh sceneC7 0 = false ∧ isObjectNode sceneC7 0 = true := by
  refine ⟨exceptOfToOption (by decide), rfl, rfl⟩

/-- Witness for the amended C7 at a concrete input. -/
theorem c7_nonmesh_skip_is_silent_witness :
    (⟨["o dbid-5"], []⟩ : WriteResult).logs = [] ∧
      writeObjectsAux 50000 false bucketC7 sceneC7 1 =
        writeObjectsAux 50000 false ([] ++ ("dbid-5", ([] : List Nat) ++ []) :: []) sceneC7 1 :=
  ⟨(c7_nonmesh_skip_is_silent 50000 false sceneC7 1 bucketC7).1 ⟨["o dbid-5"], []⟩
      (exceptOfToOption (by decide)),
    (c7_nonmesh_skip_is_silent 50000 false sceneC7 1 bucketC7).2 [] [] "dbid-5" [] [] 0
      rfl rfl rfl⟩

/-- `chunks` is a coarsening of `blocks`: each chunk is the concatenation
of a consecutive run of whole blocks. -/
def IsCoarsening (blocks chunks : List (List String)) : Prop :=
  ∃ css : List (List (List String)), css.map List.flatten = chunks ∧ css.flatten = blocks

/-- C10: the threshold check happens only after a node's entire geometry
has been appended: every payload flushed by the writer is the newline-join
of a consecutive run of whole blocks (header lines and complete per-node
line groups) — never a partial node — and each flushed chunk's line count
strictly exceeds the threshold (the buffer is allowed to grow past the
threshold before the post-node check flushes it); the final append holds
the remaining whole blocks. -/
theorem c10_flush_only_at_node_boundaries (t : Nat) (skipN : Bool) (bucket : Bucket)
    (scene : Scene) (rs : ℚ) (out : WriteResult)
    (h : writeObjectsAux t skipN bucket scene rs = Except.ok out) :
    ∃ (chunks : List (List String)) (fin : List String),
      out.appends = chunks.map (fun c => joinLines c ++ "\n") ++ [joinLines fin] ∧
      IsCoarsening (blocksAt skipN scene rs bucket 1) (chunks ++ [fin]) ∧
      ∀ c ∈ chunks, t < c.length := by
  obtain ⟨css, pending, hB, happ, hbound, _⟩ :=
    writeObjectsAux_spec t skipN bucket scene rs out h
  refine ⟨css.map (fun c => c.flatten), pending.flatten, ?_, ⟨css ++ [pending], ?_, ?_⟩, ?_⟩
  · rw [happ, List.map_map]
    rfl
  · rw [List.map_append]
    simp
  · rw [List.flatten_append, ← hB]
    simp
  · intro c hc
    obtain ⟨c0, hc0, rfl⟩ := List.mem_map.mp hc
    exact hbound c0 hc0

/-- Witness for C10 at a concrete input. -/
theorem c10_flush_only_at_node_boundaries_witness :
    ∃ (chunks : List (List String)) (fin : List String),
      outC1b.appends = chunks.map (fun c => joinLines c ++ "\n") ++ [joinLines fin] ∧
      IsCoarsening (blocksAt false sceneC1 1 bucketC1 1) (chunks ++ [fin]) ∧
      ∀ c ∈ chunks, 50000 < c.length :=
  c10_flush_only_at_node_boundaries 50000 false bucketC1 sceneC1 1 outC1b
    (exceptOfToOption (by with_unfolding_all decide))

theorem memberLines_of_nonmesh (skipN : Bool) (scene : Scene) (rs : ℚ) (o j : Nat)
    (h : memberMesh scene j = false) : memberLines skipN scene rs o j = [] := by
  unfold memberLines
  unfold memberMesh at h
  cases hn : scene.getNode j with
  | OtherNode k => simp only [hn]
  | Object dbid g tf =>
    simp only [hn] at h ⊢
    cases hg : scene.getGeometry g with
    | Mesh vs idx ns =>
      simp only [hg] at h
      exact Bool.noConfusion h
    | OtherGeom k => simp only [hg]

theorem memberVerts_of_nonmesh (scene : Scene) (j : Nat)
    (h : memberMesh scene j = false) : memberVerts scene j = 0 := by
  unfold memberVerts
  unfold memberMesh at h
  cases hn : scene.getNode j with
  | OtherNode k => simp only [hn]
  | Object dbid g tf =>
    simp only [hn] at h ⊢
    cases hg : scene.getGeometry g with
    | Mesh vs idx ns =>
      simp only [hg] at h
      exact Bool.noConfusion h
    | OtherGeom k => simp only [hg]

theorem memberBlocks_of_nonmesh (skipN : Bool) (scene : Scene) (rs : ℚ) (ms : List Nat) :
    ∀ o, (∀ j ∈ ms, memberMesh scene j = false) →
      (memberBlocks skipN scene rs ms o).flatten = [] ∧ membersVerts scene ms = 0 := by
  induction ms with
  | nil =>
    intro o _
    exact ⟨rfl, rfl⟩
  | cons m ms ih =>
    intro o h
    have hm := h m (List.mem_cons_self _ _)
    obtain ⟨h1, h2⟩ := ih (o + memberVerts scene m) fun j hj => h j (List.mem_cons_of_mem _ hj)
    constructor
    · simp only [memberBlocks, List.flatten_cons, memberLines_of_nonmesh skipN scene rs o m hm,
        List.nil_append, h1]
    · simp only [membersVerts, List.map_cons, List.sum_cons,
        memberVerts_of_nonmesh scene m hm, Nat.zero_add]
      simpa [membersVerts] using h2

theorem blocksAt_append (skipN : Bool) (scene : Scene) (rs : ℚ) (b₁ b₂ : Bucket) :
    ∀ o, blocksAt skipN scene rs (b₁ ++ b₂) o =
      blocksAt skipN scene rs b₁ o ++ blocksAt skipN scene rs b₂ (o + bucketVerts scene b₁) := by
  induction b₁ with
  | nil =>
    intro o
    simp [blocksAt, bucketVerts]
  | cons gp b₁ ih =>
    intro o
    show blocksAt skipN scene rs (gp :: (b₁ ++ b₂)) o = _
    simp only [blocksAt]
    rw [ih (o + membersVerts scene gp.2)]
    simp [bucketVerts, List.append_assoc, Nat.add_assoc]

theorem linesAt_append (skipN : Bool) (scene : Scene) (rs : ℚ) (b₁ b₂ : Bucket) (o : Nat) :
    linesAt skipN scene rs (b₁ ++ b₂) o =
      linesAt skipN scene rs b₁ o ++ linesAt skipN scene rs b₂ (o + bucketVerts scene b₁) := by
  rw [linesAt, blocksAt_append skipN scene rs b₁ b₂ o, List.flatten_append]
  rfl

/-- C9: the group header `o <GroupKey>` is pushed before any member's
geometry is examined, so a group all of whose members have non-Mesh
geometry still contributes exactly its header line, with zero vertex,
normal and face lines (and zero offset advance); the writer's file content
is the newline-join of those lines, up to the final-flush newline. -/
theorem c9_header_for_all_nonmesh_group (t : Nat) (skipN : Bool) (scene : Scene) (rs : ℚ)
    (b₁ b₂ : Bucket) (id : String) (ms : List Nat) (o : Nat)
    (hnm : ∀ j ∈ ms, memberMesh scene j = false) :
    (linesAt skipN scene rs (b₁ ++ (id, ms) :: b₂) o =
      linesAt skipN scene rs b₁ o ++
        ("o " ++ id) :: linesAt skipN scene rs b₂ (o + bucketVerts scene b₁)) ∧
    (∀ out, writeObjectsAux t skipN (b₁ ++ (id, ms) :: b₂) scene rs = Except.ok out →
      fileContent out = joinLines (linesAt skipN scene rs (b₁ ++ (id, ms) :: b₂) 1) ∨
        fileContent out =
          joinLines (linesAt skipN scene rs (b₁ ++ (id, ms) :: b₂) 1) ++ "\n") := by
  obtain ⟨hblocks, hverts⟩ := memberBlocks_of_nonmesh skipN scene rs ms
    (o + bucketVerts scene b₁) hnm
  constructor
  · rw [linesAt_append skipN scene rs b₁ ((id, ms) :: b₂) o]
    congr 1
    show (blocksAt skipN scene rs ((id, ms) :: b₂) (o + bucketVerts scene b₁)).flatten = _
    simp only [blocksAt, List.flatten_append, List.flatten_cons]
    rw [hblocks, hverts]
    simp [linesAt]
  · intro out h
    exact writeContent_cases t skipN (b₁ ++ (id, ms) :: b₂) scene rs out h

/-- Witness for C9 at a concrete input: a single group whose only member
is an Object node with non-Mesh geometry contributes exactly its header. -/
theorem c9_header_for_all_nonmesh_group_witness :
    linesAt false sceneC7 1 ([] ++ ("dbid-5", [0]) :: []) 1 =
      linesAt false sceneC7 1 [] 1 ++
        ("o " ++ "dbid-5") :: linesAt false sceneC7 1 [] (1 + bucketVerts sceneC7 []) :=
  (c9_header_for_all_nonmesh_group 50000 false sceneC7 1 [] [] "dbid-5" [0] 1
    (by decide)).1

/-- A line of the output that is a face line: its first two characters are
`f` and a space (vertex lines start with `v `, normal lines with `vn `,
headers with `o `). -/
def isFaceLine (l : String) : Bool :=
  match l.data with
  | c1 :: c2 :: _ => c1 == 'f' && c2 == ' '
  | _ => false

theorem isFaceLine_vLine (s : String) : isFaceLine ("v " ++ s) = false := by
  have hd : ("v " ++ s).data = 'v' :: ' ' :: s.data := by
    rw [String.data_append]
    rfl
  unfold isFaceLine
  rw [hd]
  rfl

theorem isFaceLine_vnLine (s : String) : isFaceLine ("vn " ++ s) = false := by
  have hd : ("vn " ++ s).data = 'v' :: 'n' :: ' ' :: s.data := by
    rw [String.data_append]
    rfl
  unfold isFaceLine
  rw [hd]
  rfl

theorem isFaceLine_oLine (s : String) : isFaceLine ("o " ++ s) = false := by
  have hd : ("o " ++ s).data = 'o' :: ' ' :: s.data := by
    rw [String.data_append]
    rfl
  unfold isFaceLine
  rw [hd]
  rfl

theorem isFaceLine_faceString (f0 f1 f2 : Nat) (w : Bool) :
    isFaceLine (faceString f0 f1 f2 w) = true := by
  unfold faceString
  cases w with
  | true =>
    rw [if_pos rfl]
    have hd : ("f " ++ (toString f0 ++ "//" ++ toString f0 ++ " " ++ toString f1 ++ "//" ++
        toString f1 ++ " " ++ toString f2 ++ "//" ++ toString f2)).data =
        'f' :: ' ' :: (toString f0 ++ "//" ++ toString f0 ++ " " ++ toString f1 ++ "//" ++
          toString f1 ++ " " ++ toString f2 ++ "//" ++ toString f2).data := by
      rw [String.data_append]
      rfl
    unfold isFaceLine
    rw [hd]
    rfl
  | false =>
    rw [if_neg (by simp)]
    have hd : ("f " ++ (toString f0 ++ " " ++ toString f1 ++ " " ++ toString f2)).data =
        'f' :: ' ' :: (toString f0 ++ " " ++ toString f1 ++ " " ++ toString f2).data := by
      rw [String.data_append]
      rfl
    unfold isFaceLine
    rw [hd]
    rfl

/-- The face-index tuples of one member at a given running offset: for a
Mesh geometry, one tuple per triangle — the with-normals flag and the
three indices `offset + localIndex`. -/
def memberFaces (skipN : Bool) (scene : Scene) (o : Nat) (nid : Nat) :
    List (Bool × Nat × Nat × Nat) :=
  match scene.getNode nid with
  | Node.Object _ g _ =>
    match scene.getGeometry g with
    | Geometry.Mesh _ idx ns =>
      (List.range (idx.length / 3)).map fun f =>
        (!skipN && ns.isSome, o + idx.getD (3 * f) 0, o + idx.getD (3 * f + 1) 0,
          o + idx.getD (3 * f + 2) 0)
    | Geometry.OtherGeom _ => []
  | Node.OtherNode _ => []

/-- Face tuples of a member list, threading the running offset. -/
def membersFaces (skipN : Bool) (scene : Scene) :
    List Nat → Nat → List (Bool × Nat × Nat × Nat)
  | [], _ => []
  | m :: ms, o =>
    memberFaces skipN scene o m ++ membersFaces skipN scene ms (o + memberVerts scene m)

/-- Face tuples of a bucket, threading the running offset across groups. -/
def facesAt (skipN : Bool) (scene : Scene) : Bucket → Nat → List (Bool × Nat × Nat × Nat)
  | [], _ => []
  | gp :: gps, o =>
    membersFaces skipN scene gp.2 o ++ facesAt skipN scene gps (o + membersVerts scene gp.2)

theorem filter_isFaceLine_vls (m : Mat4) (rs : ℚ) (vs : List ℚ) (n : Nat) :
    ((List.range n).map (vertexLine m rs vs)).filter isFaceLine = [] := by
  induction n with
  | zero => rfl
  | succ n ih =>
    rw [List.range_succ, List.map_append, List.filter_append, ih]
    simp [vertexLine, isFaceLine_vLine]

theorem filter_isFaceLine_nls (r : Mat4) (ns : List ℚ) (n : Nat) :
    ((List.range n).map (normalLine r ns)).filter isFaceLine = [] := by
  induction n with
  | zero => rfl
  | succ n ih =>
    rw [List.range_succ, List.map_append, List.filter_append, ih]
    simp [normalLine, isFaceLine_vnLine]

theorem meshLines_filter (skipN : Bool) (rs : ℚ) (m : Mat4) (o : Nat)
    (vs : List ℚ) (idx : List Nat) (ns : Option (List ℚ)) :
    (meshLines skipN rs m o vs idx ns).filter isFaceLine =
      (List.range (idx.length / 3)).map fun f =>
        faceString (o + idx.getD (3 * f) 0) (o + idx.getD (3 * f + 1) 0)
          (o + idx.getD (3 * f + 2) 0) (!skipN && ns.isSome) := by
  unfold meshLines
  rw [List.filter_append, List.filter_append, filter_isFaceLine_vls]
  have hnls :
      (if skipN then []
        else
          match ns with
          | some nrm => (List.range (nrm.length / 3)).map (normalLine m.extractRotation nrm)
          | none => []).filter isFaceLine = [] := by
    cases skipN with
    | true => rfl
    | false =>
      cases ns with
      | some nrm =>
        simp only [Bool.false_eq_true, if_false]
        exact filter_isFaceLine_nls m.extractRotation nrm _
      | none => rfl
  rw [hnls]
  rw [List.filter_eq_self.mpr fun l hl => ?_]
  · simp
  · obtain ⟨f, _, rfl⟩ := List.mem_map.mp hl
    exact isFaceLine_faceString _ _ _ _

theorem memberLines_filter (skipN : Bool) (scene : Scene) (rs : ℚ) (o j : Nat) :
    (memberLines skipN scene rs o j).filter isFaceLine =
      (memberFaces skipN scene o j).map fun q => faceString q.2.1 q.2.2.1 q.2.2.2 q.1 := by
  unfold memberLines memberFaces
  cases hn : scene.getNode j with
  | OtherNode k => rfl
  | Object dbid g tf =>
    dsimp only
    cases hg : scene.getGeometry g with
    | OtherGeom k =>
      simp only [hg]
      rfl
    | Mesh vs idx ns =>
      simp only [hg]
      rw [meshLines_filter skipN rs (nodeTransform tf) o vs idx ns, List.map_map]
      rfl

theorem membersLines_filter (skipN : Bool) (scene : Scene) (rs : ℚ) (ms : List Nat) :
    ∀ o, ((memberBlocks skipN scene rs ms o).flatten).filter isFaceLine =
      (membersFaces skipN scene ms o).map fun q => faceString q.2.1 q.2.2.1 q.2.2.2 q.1 := by
  induction ms with
  | nil => intro o; rfl
  | cons m ms ih =>
    intro o
    simp only [memberBlocks, membersFaces, List.flatten_cons, List.filter_append, List.map_append]
    rw [memberLines_filter, ih]

theorem linesAt_filter (skipN : Bool) (scene : Scene) (rs : ℚ) (bucket : Bucket) :
    ∀ o, (linesAt skipN scene rs bucket o).filter isFaceLine =
      (facesAt skipN scene bucket o).map fun q => faceString q.2.1 q.2.2.1 q.2.2.2 q.1 := by
  induction bucket with
  | nil => intro o; rfl
  | cons gp gps ih =>
    intro o
    show ((blocksAt skipN scene rs (gp :: gps) o).flatten).filter isFaceLine = _
    simp only [blocksAt, facesAt, List.flatten_append, List.flatten_cons, List.filter_append,
      List.map_append]
    rw [membersLines_filter, ← linesAt, ih]
    have hhdr : (["o " ++ gp.1].filter isFaceLine) = [] := by
      simp [isFaceLine_oLine]
    simp only [List.singleton_append, List.filter_cons, isFaceLine_oLine, List.append_assoc]
    simp

theorem memberFaces_ge (skipN : Bool) (scene : Scene) (o j : Nat)
    (q : Bool × Nat × Nat × Nat) (hq : q ∈ memberFaces skipN scene o j) :
    o ≤ q.2.1 ∧ o ≤ q.2.2.1 ∧ o ≤ q.2.2.2 := by
  unfold memberFaces at hq
  cases hn : scene.getNode j with
  | OtherNode k =>
    simp [hn] at hq
  | Object dbid g tf =>
    simp only [hn] at hq
    cases hg : scene.getGeometry g with
    | OtherGeom k =>
      simp [hg] at hq
    | Mesh vs idx ns =>
      simp only [hg] at hq
      obtain ⟨f, _, rfl⟩ := List.mem_map.mp hq
      exact ⟨Nat.le_add_right _ _, Nat.le_add_right _ _, Nat.le_add_right _ _⟩

theorem membersFaces_ge (skipN : Bool) (scene : Scene) (ms : List Nat) :
    ∀ o q, q ∈ membersFaces skipN scene ms o →
      o ≤ q.2.1 ∧ o ≤ q.2.2.1 ∧ o ≤ q.2.2.2 := by
  induction ms with
  | nil =>
    intro o q hq
    cases hq
  | cons m ms ih =>
    intro o q hq
    rcases List.mem_append.mp hq with hq | hq
    · exact memberFaces_ge skipN scene o m q hq
    · obtain ⟨h1, h2, h3⟩ := ih (o + memberVerts scene m) q hq
      exact ⟨Nat.le_trans (Nat.le_add_right _ _) h1, Nat.le_trans (Nat.le_add_right _ _) h2,
        Nat.le_trans (Nat.le_add_right _ _) h3⟩

theorem facesAt_ge (skipN : Bool) (scene : Scene) (bucket : Bucket) :
    ∀ o q, q ∈ facesAt skipN scene bucket o → o ≤ q.2.1 ∧ o ≤ q.2.2.1 ∧ o ≤ q.2.2.2 := by
  induction bucket with
  | nil =>
    intro o q hq
    cases hq
  | cons gp gps ih =>
    intro o q hq
    rcases List.mem_append.mp hq with hq | hq
    · exact membersFaces_ge skipN scene gp.2 o q hq
    · obtain ⟨h1, h2, h3⟩ := ih (o + membersVerts scene gp.2) q hq
      exact ⟨Nat.le_trans (Nat.le_add_right _ _) h1, Nat.le_trans (Nat.le_add_right _ _) h2,
        Nat.le_trans (Nat.le_add_right _ _) h3⟩

/-- C8: the running vertex offset starts at 1 for each writer call, is
never reset at a GroupKey boundary (splitting the bucket anywhere, the
second part is rendered at offset `1 + vertices of the first part`),
advances by exactly each written mesh's vertex count (the offset threading
of `facesAt`/`linesAt`), every emitted face line carries indices
`runningVertexOffset + localIndex` (the face lines of the output are
exactly the rendered `facesAt` tuples), all face indices are ≥ 1
(1-based), and the regular and opening output files are produced by two
independent writer calls, each with its own counter starting at 1. -/
theorem c8_running_offset_invariant (t : Nat) (skipN : Bool) (bucket : Bucket)
    (scene : Scene) (rs : ℚ) (out : WriteResult)
    (h : writeObjectsAux t skipN bucket scene rs = Except.ok out) :
    (fileContent out = joinLines (linesAt skipN scene rs bucket 1) ∨
      fileContent out = joinLines (linesAt skipN scene rs bucket 1) ++ "\n") ∧
    (∀ b₁ b₂, bucket = b₁ ++ b₂ →
      linesAt skipN scene rs bucket 1 =
        linesAt skipN scene rs b₁ 1 ++
          linesAt skipN scene rs b₂ (1 + bucketVerts scene b₁)) ∧
    ((linesAt skipN scene rs bucket 1).filter isFaceLine =
      (facesAt skipN scene bucket 1).map fun q => faceString q.2.1 q.2.2.1 q.2.2.2 q.1) ∧
    (∀ q ∈ facesAt skipN scene bucket 1, 1 ≤ q.2.1 ∧ 1 ≤ q.2.2.1 ∧ 1 ≤ q.2.2.2) ∧
    (∀ (scene2 : Scene) (db : Option PropDb) (reg opn : WriteResult) (lg : List String),
      writeTop skipN scene2 db = Except.ok (reg, opn, lg) →
      writeObjects skipN (getObjectNodes scene2 db).1.building scene2 (getRootScale scene2) =
          Except.ok reg ∧
        writeObjects skipN (getObjectNodes scene2 db).1.opening scene2 (getRootScale scene2) =
          Except.ok opn) := by
  refine ⟨writeContent_cases t skipN bucket scene rs out h, ?_, linesAt_filter skipN scene rs
    bucket 1, facesAt_ge skipN scene bucket 1, ?_⟩
  · rintro b₁ b₂ rfl
    exact linesAt_append skipN scene rs b₁ b₂ 1
  · intro scene2 db reg opn lg hw
    unfold writeTop at hw
    obtain ⟨r1, hr1, hw2⟩ := exceptBindOk hw
    obtain ⟨r2, hr2, hw3⟩ := exceptBindOk hw2
    cases hw3
    exact ⟨hr1, hr2⟩

/-- Witness for C8 at a concrete input. -/
theorem c8_running_offset_invariant_witness :
    (fileContent outC1b = joinLines (linesAt false sceneC1 1 bucketC1 1) ∨
      fileContent outC1b = joinLines (linesAt false sceneC1 1 bucketC1 1) ++ "\n") ∧
    (∀ b₁ b₂, bucketC1 = b₁ ++ b₂ →
      linesAt false sceneC1 1 bucketC1 1 =
        linesAt false sceneC1 1 b₁ 1 ++
          linesAt false sceneC1 1 b₂ (1 + bucketVerts sceneC1 b₁)) ∧
    ((linesAt false sceneC1 1 bucketC1 1).filter isFaceLine =
      (facesAt false sceneC1 bucketC1 1).map fun q => faceString q.2.1 q.2.2.1 q.2.2.2 q.1) ∧
    (∀ q ∈ facesAt false sceneC1 bucketC1 1, 1 ≤ q.2.1 ∧ 1 ≤ q.2.2.1 ∧ 1 ≤ q.2.2.2) ∧
    (∀ (scene2 : Scene) (db : Option PropDb) (reg opn : WriteResult) (lg : List String),
      writeTop false scene2 db = Except.ok (reg, opn, lg) →
      writeObjects false (getObjectNodes scene2 db).1.building scene2 (getRootScale scene2) =
          Except.ok reg ∧
        writeObjects false (getObjectNodes scene2 db).1.opening scene2 (getRootScale scene2) =
          Except.ok opn) :=
  c8_running_offset_invariant 50000 false bucketC1 sceneC1 1 outC1b
    (exceptOfToOption (by with_unfolding_all decide))
